import Mathlib

/-!
# Verification of the Tic-Tac-Toe game engine (`src/js/tictactoe.js`)

This file gives a shallow embedding of the game-engine core of the
drag-and-drop Tic-Tac-Toe implementation and proves (or refutes) the
specification claims about it.

The embedding keeps the source's names and structure:

* `resetGame`, `initTicTacToe`, `isOccupied`, `getPlayerName`,
  `updateVictoryConditions`, `takeTurn`, `endTurn`, `drop` mirror the
  functions of the same name in `tictactoe.js`.
* The DOM board (one `div.square` per cell, occupancy = "has a child node",
  the placed piece identified by the `player-1`/`player-2` class) is
  abstracted to a total function `board : Nat → Nat → Int`, where `0` is an
  empty square and `PLAYER_ONE = 1` / `PLAYER_TWO = -1` is a placed piece —
  exactly the integer encoding the source itself uses for players.
* `lineSums` is the source's JavaScript array of `2 * GRID_SIZE + 2`
  numbers, modelled as a `List Int` (index `x` = column `x`,
  index `GRID_SIZE + y` = row `y`, index `GRID_SIZE * 2` = main diagonal,
  index `GRID_SIZE * 2 + 1` = anti-diagonal).
* The message strings are reproduced verbatim.
* `drop`'s decision structure (the `legalTurn` conjunction, then the
  message cascade) is reproduced; the embedding additionally returns which
  branch of the source executed, as a `MoveResult`, so that theorems can
  speak about acceptance, rejection reasons and outcomes.
-/

namespace TicTacToe

/-- Source: `var PLAYER_ONE = 1;` -/
def PLAYER_ONE : Int := 1

/-- Source: `var PLAYER_TWO = -1;` -/
def PLAYER_TWO : Int := -1

/-- Source: `var PLAYER_ONE_NAME = "Player 1";` -/
def PLAYER_ONE_NAME : String := "Player 1"

/-- Source: `var PLAYER_TWO_NAME = "Player 2";` -/
def PLAYER_TWO_NAME : String := "Player 2"

/-- The mutable module-level state of `tictactoe.js` relevant to the game
engine: `GRID_SIZE`, the board squares, `lineSums`, `currentPlayer`,
`turnCount`, `gameOver`, `victoryFlag` and the current `message`.
(`NUMBER_OF_SQUARES` is always `GRID_SIZE * GRID_SIZE` and is inlined.) -/
structure GameState where
  GRID_SIZE : Nat
  board : Nat → Nat → Int
  lineSums : List Int
  currentPlayer : Int
  turnCount : Nat
  gameOver : Bool
  victoryFlag : Bool
  message : String

/-- Source: `getPlayerName` — ternary on `player === PLAYER_ONE`. -/
def getPlayerName (player : Int) : String :=
  if player = PLAYER_ONE then PLAYER_ONE_NAME else PLAYER_TWO_NAME

/-- Source: `isOccupied` — a square DOM node is occupied iff a piece node has
been appended to it, i.e. iff the board cell holds a nonzero player value. -/
def isOccupied (s : GameState) (x y : Nat) : Bool :=
  decide (s.board x y ≠ 0)

/-- Source: `resetGame` — resets flags, counters and the message, rebuilds
`lineSums` as `(GRID_SIZE * 2) + 2` zeros (the source pushes `0` that many
times onto `[]`), and clears every square of the board. -/
def resetGame (s : GameState) : GameState :=
  { s with
    gameOver := false
    victoryFlag := false
    turnCount := 0
    currentPlayer := PLAYER_ONE
    message := getPlayerName PLAYER_ONE ++ " starts the game"
    lineSums := List.replicate (s.GRID_SIZE * 2 + 2) 0
    board := fun _ _ => 0 }

/-- The state of the module-level variables before `initTicTacToe` runs:
nothing is set up yet. -/
def blankState (gridSize : Nat) : GameState :=
  { GRID_SIZE := gridSize
    board := fun _ _ => 0
    lineSums := []
    currentPlayer := PLAYER_ONE
    turnCount := 0
    gameOver := false
    victoryFlag := false
    message := "" }

/-- Source: `initTicTacToe` — sets `GRID_SIZE`, builds the DOM board, and
calls `resetGame`.  The source contains no failure path at all (in
particular it performs no validation of `gridSize`), so the embedding
always returns `some` of the freshly reset engine. -/
def initTicTacToe (gridSize : Nat) : Option GameState :=
  some (resetGame (blankState gridSize))

/-- The engine state right after `initTicTacToe` for grid size `n`. -/
def initState (n : Nat) : GameState :=
  resetGame (blankState n)

/-- Source: `lineSums[i] += player` — a read-modify-write of one array slot. -/
def bumpLine (ls : List Int) (i : Nat) (player : Int) : List Int :=
  ls.set i (ls.getD i 0 + player)

/-- Source: `updateVictoryConditions` — adds `player` to the column-`x` and
row-`y` sums unconditionally, then to the main-diagonal sum only if the
victory flag is still unset and `x === y`, then to the anti-diagonal sum
only if the victory flag is still unset and
`Math.abs(x - (GRID_SIZE - 1)) === y`; each performed update also refreshes
the victory flag from the updated sum. -/
def updateVictoryConditions (s : GameState) (x y : Nat) (player : Int) : GameState :=
  let n := s.GRID_SIZE
  let ls2 := bumpLine (bumpLine s.lineSums x player) (n + y) player
  let vf2 : Bool := ((ls2.getD x 0).natAbs == n) || ((ls2.getD (n + y) 0).natAbs == n)
  let ls3 := if vf2 = false ∧ x = y then bumpLine ls2 (n * 2) player else ls2
  let vf3 : Bool :=
    if vf2 = false ∧ x = y then (ls3.getD (n * 2) 0).natAbs == n else vf2
  let onAnti : Bool := ((x : Int) - ((n : Int) - 1)).natAbs == y
  let ls4 := if vf3 = false ∧ onAnti = true then bumpLine ls3 (n * 2 + 1) player else ls3
  let vf4 : Bool :=
    if vf3 = false ∧ onAnti = true then (ls4.getD (n * 2 + 1) 0).natAbs == n else vf3
  { s with lineSums := ls4, victoryFlag := vf4 }

/-- Source: `takeTurn` appends the dragged piece's node to the target square
(`event.target.appendChild(newNode)`): the cell `(x, y)` now holds `piece`. -/
def placePiece (s : GameState) (x y : Nat) (piece : Int) : GameState :=
  { s with board := fun a b => if a = x ∧ b = y then piece else s.board a b }

/-- Source: `takeTurn` — reads `(x, y)` and the piece from the event, puts
the piece on the board and calls `updateVictoryConditions`. -/
def takeTurn (s : GameState) (x y : Nat) (piece : Int) : GameState :=
  updateVictoryConditions (placePiece s x y piece) x y piece

/-- The outcome of an accepted move, identifying which branch of the
source's `endTurn` executed. -/
inductive Outcome where
  | win (player : Int)
  | draw
  | cont (next : Int)
deriving DecidableEq, Repr

/-- The rejection reasons of the specification, identifying which branch of
the source's `drop` message cascade executed (`invalidCoordinate` is the
spec-level reason of `attemptMove`, see below). -/
inductive Reason where
  | gameAlreadyOver
  | notYourTurn (expected : Int)
  | cellOccupied
  | invalidCoordinate
deriving DecidableEq, Repr

/-- The result of a move attempt. -/
inductive MoveResult where
  | accepted (outcome : Outcome)
  | rejected (reason : Reason)
deriving DecidableEq, Repr

/-- Source: `endTurn` — increments `turnCount`; if the victory flag is set
the current player wins and the game ends; otherwise if the board is full
(`turnCount >= NUMBER_OF_SQUARES`) the game ends in a tie; otherwise the
current player switches and play continues. -/
def endTurn (s : GameState) : GameState × Outcome :=
  let s1 := { s with turnCount := s.turnCount + 1 }
  if s1.victoryFlag then
    ({ s1 with gameOver := true
               message := getPlayerName s1.currentPlayer ++ " wins!" },
     Outcome.win s1.currentPlayer)
  else if s1.GRID_SIZE * s1.GRID_SIZE ≤ s1.turnCount then
    ({ s1 with gameOver := true
               message := "Tie game... you both lose!" },
     Outcome.draw)
  else
    let next := if s1.currentPlayer = PLAYER_ONE then PLAYER_TWO else PLAYER_ONE
    ({ s1 with currentPlayer := next
               message := getPlayerName next ++ "\x27s turn" },
     Outcome.cont next)

/-- Source: `drop` — computes
`legalTurn = (!gameOver && actualPlayer === currentPlayer && !isOccupied(target))`;
if legal it runs `takeTurn` then `endTurn`, otherwise it sets the
informative message following the source's cascade (`gameOver` first, then
wrong player, then occupied cell — when `legalTurn` is false one of the
three necessarily holds, and the final branch is exactly the occupied-cell
one). -/
def drop (s : GameState) (actualPlayer : Int) (x y : Nat) : GameState × MoveResult :=
  let legalTurn : Prop :=
    s.gameOver = false ∧ actualPlayer = s.currentPlayer ∧ isOccupied s x y = false
  if legalTurn then
    let r := endTurn (takeTurn s x y actualPlayer)
    (r.1, MoveResult.accepted r.2)
  else if s.gameOver then
    ({ s with message := "The game is already over!" },
     MoveResult.rejected Reason.gameAlreadyOver)
  else if actualPlayer ≠ s.currentPlayer then
    ({ s with message := "HEY! LISTEN! It\x27s " ++ getPlayerName s.currentPlayer ++ "\x27s turn!" },
     MoveResult.rejected (Reason.notYourTurn s.currentPlayer))
  else
    ({ s with message := "That spot is already taken!" },
     MoveResult.rejected Reason.cellOccupied)

/-- Modelled from the spec: the engine-level `attemptMove(player, x, y)`
interface of spec §4.1/§7.  The source wires `drop` only to board squares
whose `data-x`/`data-y` attributes are always inside `[0, GRID_SIZE)`, so it
never defines behaviour for out-of-range coordinates; the spec adds an
explicit `InvalidCoordinate` failure for them ("engine fails with
InvalidCoordinate rather than silently ignoring").  In-range attempts defer
to the source's `drop`. -/
def attemptMove (s : GameState) (player : Int) (x y : Int) : GameState × MoveResult :=
  if 0 ≤ x ∧ x < (s.GRID_SIZE : Int) ∧ 0 ≤ y ∧ y < (s.GRID_SIZE : Int) then
    drop s player x.toNat y.toNat
  else
    (s, MoveResult.rejected Reason.invalidCoordinate)

/-- The reachable engine states for a game of grid size `n`: the state after
`initTicTacToe`, plus everything obtainable by pressing the Reset button
(`resetGame`) or dropping one of the two player pieces on one of the `n × n`
board squares (`drop`; squares exist exactly for coordinates below `n`). -/
inductive Reachable (n : Nat) : GameState → Prop where
  | init : Reachable n (initState n)
  | reset (s : GameState) : Reachable n s → Reachable n (resetGame s)
  | move (s : GameState) (p : Int) (x y : Nat) :
      Reachable n s → (p = PLAYER_ONE ∨ p = PLAYER_TWO) →
      x < n → y < n → Reachable n (drop s p x y).1

/-! ## Board-derived quantities -/

/-- The sum of the board values of column `x` (what `lineSums[x]` is meant
to track). -/
def colSum (s : GameState) (x : Nat) : Int :=
  ∑ j ∈ Finset.range s.GRID_SIZE, s.board x j

/-- The sum of the board values of row `y` (what `lineSums[GRID_SIZE + y]`
is meant to track). -/
def rowSum (s : GameState) (y : Nat) : Int :=
  ∑ i ∈ Finset.range s.GRID_SIZE, s.board i y

/-- How many cells of the main diagonal hold the value `v`. -/
def countDiag (s : GameState) (v : Int) : Nat :=
  ((Finset.range s.GRID_SIZE).filter (fun i => s.board i i = v)).card

/-- How many cells of the anti-diagonal hold the value `v`. -/
def countAnti (s : GameState) (v : Int) : Nat :=
  ((Finset.range s.GRID_SIZE).filter (fun i => s.board i (s.GRID_SIZE - 1 - i) = v)).card

/-- The number of occupied cells of the `GRID_SIZE × GRID_SIZE` board. -/
def occupiedCount (s : GameState) : Nat :=
  (((Finset.range s.GRID_SIZE) ×ˢ (Finset.range s.GRID_SIZE)).filter
    (fun q => s.board q.1 q.2 ≠ 0)).card

/-! ## Helper lemmas: `bumpLine` and line-sum table access -/

theorem length_bumpLine (ls : List Int) (i : Nat) (p : Int) :
    (bumpLine ls i p).length = ls.length :=
  List.length_set ls i _

theorem getD_bumpLine_self {ls : List Int} {i : Nat} (p : Int) (h : i < ls.length) :
    (bumpLine ls i p).getD i 0 = ls.getD i 0 + p := by
  simp [bumpLine, List.getD_eq_getElem?_getD, List.getElem?_set_self h]

theorem getD_bumpLine_ne {ls : List Int} {i j : Nat} (p : Int) (h : i ≠ j) :
    (bumpLine ls i p).getD j 0 = ls.getD j 0 := by
  simp [bumpLine, List.getD_eq_getElem?_getD, List.getElem?_set_ne h]

theorem getD_replicate_zero (m i : Nat) : (List.replicate m (0 : Int)).getD i 0 = 0 := by
  simp only [List.getD_eq_getElem?_getD, List.getElem?_replicate]
  split <;> rfl

/-! ## Helper lemmas: sums and counts over one-point board updates -/

theorem sum_point_update {t : Finset ℕ} {f g : ℕ → Int} {y : ℕ} {p : Int}
    (hy : y ∈ t) (hcong : ∀ j ∈ t, j ≠ y → g j = f j) (h0 : f y = 0) (hp : g y = p) :
    ∑ j ∈ t, g j = (∑ j ∈ t, f j) + p := by
  rw [← Finset.sum_erase_add t g hy, ← Finset.sum_erase_add t f hy]
  rw [Finset.sum_congr rfl
      (fun j hj => hcong j (Finset.mem_of_mem_erase hj) ((Finset.mem_erase.mp hj).1))]
  rw [h0, hp]
  ring

theorem filter_card_point_update {α : Type} [DecidableEq α] {t : Finset α}
    {P Q : α → Prop} [DecidablePred P] [DecidablePred Q] {a : α}
    (ha : a ∈ t) (hcong : ∀ j ∈ t, j ≠ a → (Q j ↔ P j)) (hPa : ¬ P a) (hQa : Q a) :
    (t.filter Q).card = (t.filter P).card + 1 := by
  have hset : t.filter Q = insert a (t.filter P) := by
    ext j
    simp only [Finset.mem_filter, Finset.mem_insert]
    constructor
    · intro ⟨hjt, hQj⟩
      by_cases hj : j = a
      · exact Or.inl hj
      · exact Or.inr ⟨hjt, (hcong j hjt hj).mp hQj⟩
    · intro h
      rcases h with h | ⟨hjt, hPj⟩
      · exact h ▸ ⟨ha, hQa⟩
      · refine ⟨hjt, ?_⟩
        by_cases hj : j = a
        · exact absurd (hj ▸ hPj) hPa
        · exact (hcong j hjt hj).mpr hPj
  rw [hset, Finset.card_insert_of_not_mem (by simp [Finset.mem_filter, hPa])]

theorem filter_card_point_mono {α : Type} [DecidableEq α] {t : Finset α}
    {P Q : α → Prop} [DecidablePred P] [DecidablePred Q]
    (h : ∀ j ∈ t, P j → Q j) :
    (t.filter P).card ≤ (t.filter Q).card := by
  apply Finset.card_le_card
  intro j hj
  rw [Finset.mem_filter] at hj ⊢
  exact ⟨hj.1, h j hj.1 hj.2⟩

/-! ## Field-stability lemmas for the step functions -/

theorem placePiece_GRID_SIZE (s : GameState) (x y : Nat) (p : Int) :
    (placePiece s x y p).GRID_SIZE = s.GRID_SIZE := rfl

theorem placePiece_lineSums (s : GameState) (x y : Nat) (p : Int) :
    (placePiece s x y p).lineSums = s.lineSums := rfl

theorem placePiece_board_self {s : GameState} (x y : Nat) (p : Int) :
    (placePiece s x y p).board x y = p := by
  simp [placePiece]

theorem placePiece_board_ne {s : GameState} {x y a b : Nat} (p : Int)
    (h : ¬(a = x ∧ b = y)) : (placePiece s x y p).board a b = s.board a b := by
  simp only [placePiece]
  rw [if_neg h]

theorem uVC_board (s : GameState) (x y : Nat) (p : Int) :
    (updateVictoryConditions s x y p).board = s.board := rfl

theorem uVC_GRID_SIZE (s : GameState) (x y : Nat) (p : Int) :
    (updateVictoryConditions s x y p).GRID_SIZE = s.GRID_SIZE := rfl

theorem uVC_currentPlayer (s : GameState) (x y : Nat) (p : Int) :
    (updateVictoryConditions s x y p).currentPlayer = s.currentPlayer := rfl

theorem uVC_turnCount (s : GameState) (x y : Nat) (p : Int) :
    (updateVictoryConditions s x y p).turnCount = s.turnCount := rfl

theorem uVC_gameOver (s : GameState) (x y : Nat) (p : Int) :
    (updateVictoryConditions s x y p).gameOver = s.gameOver := rfl

/-- `endTurn` when the victory flag is set: current player wins. -/
theorem endTurn_vf {s : GameState} (h : s.victoryFlag = true) :
    endTurn s = ({ s with turnCount := s.turnCount + 1
                          gameOver := true
                          message := getPlayerName s.currentPlayer ++ " wins!" },
                 Outcome.win s.currentPlayer) := by
  rw [endTurn]
  simp only [h, if_true]

/-- `endTurn` with no victory on a full board: tie. -/
theorem endTurn_tie {s : GameState} (h : s.victoryFlag = false)
    (h2 : s.GRID_SIZE * s.GRID_SIZE ≤ s.turnCount + 1) :
    endTurn s = ({ s with turnCount := s.turnCount + 1
                          gameOver := true
                          message := "Tie game... you both lose!" },
                 Outcome.draw) := by
  rw [endTurn]
  simp only [h, Bool.false_eq_true, if_false]
  rw [if_pos h2]

/-- `endTurn` with no victory and room left: switch players and continue. -/
theorem endTurn_next {s : GameState} (h : s.victoryFlag = false)
    (h2 : ¬ s.GRID_SIZE * s.GRID_SIZE ≤ s.turnCount + 1) :
    endTurn s = ({ s with turnCount := s.turnCount + 1
                          currentPlayer :=
                            if s.currentPlayer = PLAYER_ONE then PLAYER_TWO else PLAYER_ONE
                          message :=
                            getPlayerName
                              (if s.currentPlayer = PLAYER_ONE then PLAYER_TWO else PLAYER_ONE)
                              ++ "\x27s turn" },
                 Outcome.cont
                   (if s.currentPlayer = PLAYER_ONE then PLAYER_TWO else PLAYER_ONE)) := by
  rw [endTurn]
  simp only [h, Bool.false_eq_true, if_false]
  rw [if_neg h2]

/-- `drop` on a legal turn runs `takeTurn` then `endTurn`. -/
theorem drop_accepted {s : GameState} {p : Int} {x y : Nat}
    (hgo : s.gameOver = false) (hp : p = s.currentPlayer)
    (hocc : isOccupied s x y = false) :
    drop s p x y =
      ((endTurn (takeTurn s x y p)).1,
        MoveResult.accepted (endTurn (takeTurn s x y p)).2) := by
  rw [drop]
  simp only
  rw [if_pos ⟨hgo, hp, hocc⟩]

/-- `drop` when the game is over: rejected, `GameAlreadyOver`. -/
theorem drop_over {s : GameState} {p : Int} {x y : Nat} (hgo : s.gameOver = true) :
    drop s p x y =
      ({ s with message := "The game is already over!" },
        MoveResult.rejected Reason.gameAlreadyOver) := by
  rw [drop]
  simp only
  rw [if_neg (by intro h; rw [hgo] at h; exact absurd h.1 (by simp)), if_pos hgo]

/-- `drop` by the wrong player in an ongoing game: rejected, `NotYourTurn`. -/
theorem drop_wrong_player {s : GameState} {p : Int} {x y : Nat}
    (hgo : s.gameOver = false) (hp : p ≠ s.currentPlayer) :
    drop s p x y =
      ({ s with message :=
          "HEY! LISTEN! It\x27s " ++ getPlayerName s.currentPlayer ++ "\x27s turn!" },
        MoveResult.rejected (Reason.notYourTurn s.currentPlayer)) := by
  rw [drop]
  simp only
  rw [if_neg (fun h => hp h.2.1), if_neg (by rw [hgo]; simp), if_pos hp]

/-- `drop` by the right player on an occupied square: rejected, `CellOccupied`. -/
theorem drop_occupied {s : GameState} {p : Int} {x y : Nat}
    (hgo : s.gameOver = false) (hp : p = s.currentPlayer)
    (hocc : isOccupied s x y = true) :
    drop s p x y =
      ({ s with message := "That spot is already taken!" },
        MoveResult.rejected Reason.cellOccupied) := by
  rw [drop]
  simp only
  rw [if_neg (by intro h; rw [hocc] at h; exact absurd h.2.2 (by simp)),
    if_neg (by rw [hgo]; simp), if_neg (by simp [hp])]

/-- For an in-range column `x`, the source's anti-diagonal membership test
`Math.abs(x - (GRID_SIZE - 1)) === y` picks out exactly the cell
`(x, GRID_SIZE - 1 - x)`. -/
theorem onAnti_iff {x y n : Nat} (hx : x < n) :
    (((x : Int) - ((n : Int) - 1)).natAbs = y) ↔ y = n - 1 - x := by
  omega

/-- A line sum that just moved by `±1` onto `±n` was not at `±n` before. -/
theorem natAbs_succ_ne {a p : Int} {n : Nat} (hp : p = 1 ∨ p = -1)
    (h : (a + p).natAbs = n) : a.natAbs ≠ n := by
  rcases hp with h1 | h1 <;> subst h1 <;> omega

/-- Full characterization of one `updateVictoryConditions` call on a
well-formed line-sum table: how each table entry moves, and that the
victory flag is set exactly when some entry newly reached absolute value
`GRID_SIZE`. -/
theorem uVC_spec {s : GameState} {x y : Nat} {p : Int} {u : GameState}
    (hu : u = updateVictoryConditions s x y p)
    (hx : x < s.GRID_SIZE) (hy : y < s.GRID_SIZE)
    (hlen : s.lineSums.length = 2 * s.GRID_SIZE + 2)
    (hp : p = 1 ∨ p = -1) :
    u.lineSums.length = 2 * s.GRID_SIZE + 2 ∧
    u.lineSums.getD x 0 = s.lineSums.getD x 0 + p ∧
    u.lineSums.getD (s.GRID_SIZE + y) 0 = s.lineSums.getD (s.GRID_SIZE + y) 0 + p ∧
    ((x = y ∧
        u.lineSums.getD (s.GRID_SIZE * 2) 0 = s.lineSums.getD (s.GRID_SIZE * 2) 0 + p) ∨
      u.lineSums.getD (s.GRID_SIZE * 2) 0 = s.lineSums.getD (s.GRID_SIZE * 2) 0) ∧
    ((y = s.GRID_SIZE - 1 - x ∧
        u.lineSums.getD (s.GRID_SIZE * 2 + 1) 0 =
          s.lineSums.getD (s.GRID_SIZE * 2 + 1) 0 + p) ∨
      u.lineSums.getD (s.GRID_SIZE * 2 + 1) 0 = s.lineSums.getD (s.GRID_SIZE * 2 + 1) 0) ∧
    (x ≠ y →
      u.lineSums.getD (s.GRID_SIZE * 2) 0 = s.lineSums.getD (s.GRID_SIZE * 2) 0) ∧
    (y ≠ s.GRID_SIZE - 1 - x →
      u.lineSums.getD (s.GRID_SIZE * 2 + 1) 0 = s.lineSums.getD (s.GRID_SIZE * 2 + 1) 0) ∧
    (∀ i, i ≠ x → i ≠ s.GRID_SIZE + y → i ≠ s.GRID_SIZE * 2 → i ≠ s.GRID_SIZE * 2 + 1 →
      u.lineSums.getD i 0 = s.lineSums.getD i 0) ∧
    (u.victoryFlag = true ↔
      ∃ i, i < 2 * s.GRID_SIZE + 2 ∧ (u.lineSums.getD i 0).natAbs = s.GRID_SIZE ∧
        (s.lineSums.getD i 0).natAbs ≠ s.GRID_SIZE) := by
  subst hu
  unfold updateVictoryConditions
  dsimp only
  set n := s.GRID_SIZE with hn
  set L := s.lineSums with hL
  have d1 : x ≠ n + y := by omega
  have d2 : x ≠ n * 2 := by omega
  have d3 : x ≠ n * 2 + 1 := by omega
  have d4 : n + y ≠ n * 2 := by omega
  have d5 : n + y ≠ n * 2 + 1 := by omega
  have d6 : (n * 2 : Nat) ≠ n * 2 + 1 := by omega
  set L2 := bumpLine (bumpLine L x p) (n + y) p with hL2
  have len2 : L2.length = 2 * n + 2 := by
    rw [hL2, length_bumpLine, length_bumpLine, hlen]
  have gx2 : L2.getD x 0 = L.getD x 0 + p := by
    rw [hL2, getD_bumpLine_ne p (Ne.symm d1), getD_bumpLine_self p (by omega)]
  have gy2 : L2.getD (n + y) 0 = L.getD (n + y) 0 + p := by
    rw [hL2, getD_bumpLine_self p (by rw [length_bumpLine]; omega),
      getD_bumpLine_ne p d1]
  have go2 : ∀ i, i ≠ x → i ≠ n + y → L2.getD i 0 = L.getD i 0 := by
    intro i h1 h2
    rw [hL2, getD_bumpLine_ne p (Ne.symm h2), getD_bumpLine_ne p (Ne.symm h1)]
  have gd2 : L2.getD (n * 2) 0 = L.getD (n * 2) 0 := go2 _ (Ne.symm d2) (Ne.symm d4)
  have ga2 : L2.getD (n * 2 + 1) 0 = L.getD (n * 2 + 1) 0 := go2 _ (Ne.symm d3) (Ne.symm d5)
  by_cases hv2 : (((L2.getD x 0).natAbs == n) || ((L2.getD (n + y) 0).natAbs == n)) = true
  · -- column or row hit ±n: victory, no diagonal updates
    have hnc : ¬ ((((L2.getD x 0).natAbs == n) || ((L2.getD (n + y) 0).natAbs == n)) = false
        ∧ x = y) := by
      rw [hv2]; simp
    have hnc2 : ¬ ((((L2.getD x 0).natAbs == n) || ((L2.getD (n + y) 0).natAbs == n)) = false
        ∧ (((x : Int) - ((n : Int) - 1)).natAbs == y) = true) := by
      rw [hv2]; simp
    simp only [if_neg hnc, if_neg hnc2]
    refine ⟨len2, gx2, gy2, Or.inr gd2, Or.inr ga2, fun _ => gd2, fun _ => ga2,
      fun i h1 h2 _ _ => go2 i h1 h2, ?_⟩
    constructor
    · intro _
      rcases Bool.or_eq_true _ _ ▸ hv2 with h | h
      · exact ⟨x, by omega, by rwa [beq_iff_eq] at h,
          natAbs_succ_ne hp (by rw [← gx2]; rwa [beq_iff_eq] at h)⟩
      · exact ⟨n + y, by omega, by rwa [beq_iff_eq] at h,
          natAbs_succ_ne hp (by rw [← gy2]; rwa [beq_iff_eq] at h)⟩
    · intro _; exact hv2
  · -- no column/row victory
    have hv2f : (((L2.getD x 0).natAbs == n) || ((L2.getD (n + y) 0).natAbs == n)) = false :=
      eq_false_of_ne_true hv2
    have hcx : (L2.getD x 0).natAbs ≠ n := by
      have := Bool.or_eq_false_iff.mp hv2f
      simpa using this.1
    have hcy : (L2.getD (n + y) 0).natAbs ≠ n := by
      have := Bool.or_eq_false_iff.mp hv2f
      simpa using this.2
    by_cases hxy : x = y
    · -- the placed cell is on the main diagonal: diagonal sum is updated
      have hc1 : ((((L2.getD x 0).natAbs == n) || ((L2.getD (n + y) 0).natAbs == n)) = false
          ∧ x = y) := ⟨hv2f, hxy⟩
      simp only [if_pos hc1]
      set L3 := bumpLine L2 (n * 2) p with hL3
      have len3 : L3.length = 2 * n + 2 := by rw [hL3, length_bumpLine, len2]
      have gx3 : L3.getD x 0 = L.getD x 0 + p := by
        rw [hL3, getD_bumpLine_ne p d2.symm.symm.symm, gx2]
      have gy3 : L3.getD (n + y) 0 = L.getD (n + y) 0 + p := by
        rw [hL3, getD_bumpLine_ne p d4.symm.symm.symm, gy2]
      have gd3 : L3.getD (n * 2) 0 = L.getD (n * 2) 0 + p := by
        rw [hL3, getD_bumpLine_self p (by omega), gd2]
      have ga3 : L3.getD (n * 2 + 1) 0 = L.getD (n * 2 + 1) 0 := by
        rw [hL3, getD_bumpLine_ne p d6, ga2]
      have go3 : ∀ i, i ≠ x → i ≠ n + y → i ≠ n * 2 → L3.getD i 0 = L.getD i 0 := by
        intro i h1 h2 h3
        rw [hL3, getD_bumpLine_ne p (Ne.symm h3)]
        exact go2 i h1 h2
      by_cases hv3 : ((L3.getD (n * 2) 0).natAbs == n) = true
      · -- diagonal hit ±n: victory, anti-diagonal not updated
        have hnc2 : ¬ (((L3.getD (n * 2) 0).natAbs == n) = false
            ∧ (((x : Int) - ((n : Int) - 1)).natAbs == y) = true) := by
          rw [hv3]; simp
        simp only [if_neg hnc2]
        refine ⟨len3, gx3, gy3, Or.inl ⟨hxy, gd3⟩, Or.inr ga3,
          fun h => absurd hxy h, fun _ => ga3, fun i h1 h2 h3 _ => go3 i h1 h2 h3, ?_⟩
        constructor
        · intro _
          exact ⟨n * 2, by omega, by rwa [beq_iff_eq] at hv3,
            natAbs_succ_ne hp (by rw [← gd3]; rwa [beq_iff_eq] at hv3)⟩
        · intro _; exact hv3
      · -- no victory yet after the diagonal update
        have hv3f : ((L3.getD (n * 2) 0).natAbs == n) = false :=
          eq_false_of_ne_true hv3
        have hcd : (L3.getD (n * 2) 0).natAbs ≠ n := by simpa using hv3f
        by_cases hA : (((x : Int) - ((n : Int) - 1)).natAbs == y) = true
        · -- the cell is also on the anti-diagonal: anti sum updated
          have hAy : y = n - 1 - x := (onAnti_iff hx).mp (by simpa using hA)
          have hc2 : (((L3.getD (n * 2) 0).natAbs == n) = false
              ∧ (((x : Int) - ((n : Int) - 1)).natAbs == y) = true) := ⟨hv3f, hA⟩
          simp only [if_pos hc2]
          set L4 := bumpLine L3 (n * 2 + 1) p with hL4
          have len4 : L4.length = 2 * n + 2 := by rw [hL4, length_bumpLine, len3]
          have gx4 : L4.getD x 0 = L.getD x 0 + p := by
            rw [hL4, getD_bumpLine_ne p (Ne.symm d3), gx3]
          have gy4 : L4.getD (n + y) 0 = L.getD (n + y) 0 + p := by
            rw [hL4, getD_bumpLine_ne p (Ne.symm d5), gy3]
          have gd4 : L4.getD (n * 2) 0 = L.getD (n * 2) 0 + p := by
            rw [hL4, getD_bumpLine_ne p (Ne.symm d6), gd3]
          have ga4 : L4.getD (n * 2 + 1) 0 = L.getD (n * 2 + 1) 0 + p := by
            rw [hL4, getD_bumpLine_self p (by omega), ga3]
          have go4 : ∀ i, i ≠ x → i ≠ n + y → i ≠ n * 2 → i ≠ n * 2 + 1 →
              L4.getD i 0 = L.getD i 0 := by
            intro i h1 h2 h3 h4
            rw [hL4, getD_bumpLine_ne p (Ne.symm h4)]
            exact go3 i h1 h2 h3
          refine ⟨len4, gx4, gy4, Or.inl ⟨hxy, gd4⟩, Or.inl ⟨hAy, ga4⟩,
            fun h => absurd hxy h, fun h => absurd hAy h, go4, ?_⟩
          constructor
          · intro hvt
            exact ⟨n * 2 + 1, by omega, by rwa [beq_iff_eq] at hvt,
              natAbs_succ_ne hp (by rw [← ga4]; rwa [beq_iff_eq] at hvt)⟩
          · rintro ⟨i, hi, hnew, hold⟩
            by_cases h1 : i = x
            · subst h1; rw [gx4] at hnew
              exact absurd hnew (by rw [gx2] at hcx; exact hcx)
            by_cases h2 : i = n + y
            · subst h2; rw [gy4] at hnew
              exact absurd hnew (by rw [gy2] at hcy; exact hcy)
            by_cases h3 : i = n * 2
            · subst h3; rw [gd4] at hnew
              exact absurd hnew (by rw [gd3] at hcd; exact hcd)
            by_cases h4 : i = n * 2 + 1
            · subst h4; rw [beq_iff_eq]; rwa [ga4] at hnew ⊢
            · exact absurd (go4 i h1 h2 h3 h4 ▸ hnew) hold
        · -- not on the anti-diagonal: no further update, no victory
          have hnc2 : ¬ (((L3.getD (n * 2) 0).natAbs == n) = false
              ∧ (((x : Int) - ((n : Int) - 1)).natAbs == y) = true) := by
            intro h; exact hA h.2
          simp only [if_neg hnc2]
          have hAy : y ≠ n - 1 - x := by
            intro h; exact hA (by rw [beq_iff_eq]; exact (onAnti_iff hx).mpr h)
          refine ⟨len3, gx3, gy3, Or.inl ⟨hxy, gd3⟩, Or.inr ga3,
            fun h => absurd hxy h, fun _ => ga3, fun i h1 h2 h3 _ => go3 i h1 h2 h3, ?_⟩
          constructor
          · intro h; exact absurd h hv3
          · rintro ⟨i, hi, hnew, hold⟩
            exfalso
            by_cases h1 : i = x
            · subst h1; rw [gx3] at hnew; rw [gx2] at hcx; exact hcx hnew
            by_cases h2 : i = n + y
            · subst h2; rw [gy3] at hnew; rw [gy2] at hcy; exact hcy hnew
            by_cases h3 : i = n * 2
            · subst h3; exact hcd hnew
            by_cases h4 : i = n * 2 + 1
            · subst h4; rw [ga3] at hnew; exact hold hnew
            · exact hold (go3 i h1 h2 h3 ▸ hnew)
    · -- the placed cell is off the main diagonal
      have hnc1 : ¬ ((((L2.getD x 0).natAbs == n) || ((L2.getD (n + y) 0).natAbs == n)) = false
          ∧ x = y) := by
        intro h; exact hxy h.2
      simp only [if_neg hnc1]
      by_cases hA : (((x : Int) - ((n : Int) - 1)).natAbs == y) = true
      · -- on the anti-diagonal: anti sum updated
        have hAy : y = n - 1 - x := (onAnti_iff hx).mp (by simpa using hA)
        have hc2 : ((((L2.getD x 0).natAbs == n) || ((L2.getD (n + y) 0).natAbs == n)) = false
            ∧ (((x : Int) - ((n : Int) - 1)).natAbs == y) = true) := ⟨hv2f, hA⟩
        simp only [if_pos hc2]
        set L4 := bumpLine L2 (n * 2 + 1) p with hL4
        have len4 : L4.length = 2 * n + 2 := by rw [hL4, length_bumpLine, len2]
        have gx4 : L4.getD x 0 = L.getD x 0 + p := by
          rw [hL4, getD_bumpLine_ne p (Ne.symm d3), gx2]
        have gy4 : L4.getD (n + y) 0 = L.getD (n + y) 0 + p := by
          rw [hL4, getD_bumpLine_ne p (Ne.symm d5), gy2]
        have gd4 : L4.getD (n * 2) 0 = L.getD (n * 2) 0 := by
          rw [hL4, getD_bumpLine_ne p (Ne.symm d6), gd2]
        have ga4 : L4.getD (n * 2 + 1) 0 = L.getD (n * 2 + 1) 0 + p := by
          rw [hL4, getD_bumpLine_self p (by omega), ga2]
        have go4 : ∀ i, i ≠ x → i ≠ n + y → i ≠ n * 2 + 1 → L4.getD i 0 = L.getD i 0 := by
          intro i h1 h2 h4
          rw [hL4, getD_bumpLine_ne p (Ne.symm h4)]
          exact go2 i h1 h2
        refine ⟨len4, gx4, gy4, Or.inr gd4, Or.inl ⟨hAy, ga4⟩,
          fun _ => gd4, fun h => absurd hAy h, fun i h1 h2 _ h4 => go4 i h1 h2 h4, ?_⟩
        constructor
        · intro hvt
          exact ⟨n * 2 + 1, by omega, by rwa [beq_iff_eq] at hvt,
            natAbs_succ_ne hp (by rw [← ga4]; rwa [beq_iff_eq] at hvt)⟩
        · rintro ⟨i, hi, hnew, hold⟩
          by_cases h1 : i = x
          · subst h1; rw [gx4] at hnew
            exact absurd hnew (by rw [gx2] at hcx; exact hcx)
          by_cases h2 : i = n + y
          · subst h2; rw [gy4] at hnew
            exact absurd hnew (by rw [gy2] at hcy; exact hcy)
          by_cases h4 : i = n * 2 + 1
          · subst h4; rw [beq_iff_eq]; rwa [ga4] at hnew ⊢
          by_cases h3 : i = n * 2
          · subst h3; rw [gd4] at hnew; exact absurd hnew hold
          · exact absurd (go4 i h1 h2 h4 ▸ hnew) hold
      · -- off both diagonals: only column and row entries moved, no victory
        have hnc2 : ¬ ((((L2.getD x 0).natAbs == n) || ((L2.getD (n + y) 0).natAbs == n)) = false
            ∧ (((x : Int) - ((n : Int) - 1)).natAbs == y) = true) := by
          intro h; exact hA h.2
        simp only [if_neg hnc2]
        have hAy : y ≠ n - 1 - x := by
          intro h; exact hA (by rw [beq_iff_eq]; exact (onAnti_iff hx).mpr h)
        refine ⟨len2, gx2, gy2, Or.inr gd2, Or.inr ga2, fun _ => gd2, fun _ => ga2,
          fun i h1 h2 _ _ => go2 i h1 h2, ?_⟩
        constructor
        · intro h; exact absurd h hv2
        · rintro ⟨i, hi, hnew, hold⟩
          exfalso
          by_cases h1 : i = x
          · subst h1; exact hcx hnew
          by_cases h2 : i = n + y
          · subst h2; exact hcy hnew
          · exact hold (go2 i h1 h2 ▸ hnew)

/-! ## Effect of `placePiece` on board-derived quantities -/

theorem colSum_place_self {s : GameState} {x y : Nat} {p : Int}
    (hy : y < s.GRID_SIZE) (h0 : s.board x y = 0) :
    colSum (placePiece s x y p) x = colSum s x + p := by
  unfold colSum
  simp only [placePiece_GRID_SIZE]
  exact sum_point_update (Finset.mem_range.mpr hy)
    (fun j _ hj => placePiece_board_ne p (fun h => hj h.2))
    h0 (placePiece_board_self x y p)

theorem colSum_place_other {s : GameState} {x y x' : Nat} {p : Int} (hne : x' ≠ x) :
    colSum (placePiece s x y p) x' = colSum s x' := by
  unfold colSum
  simp only [placePiece_GRID_SIZE]
  exact Finset.sum_congr rfl (fun j _ => placePiece_board_ne p (fun h => hne h.1))

theorem rowSum_place_self {s : GameState} {x y : Nat} {p : Int}
    (hx : x < s.GRID_SIZE) (h0 : s.board x y = 0) :
    rowSum (placePiece s x y p) y = rowSum s y + p := by
  unfold rowSum
  simp only [placePiece_GRID_SIZE]
  exact sum_point_update (Finset.mem_range.mpr hx)
    (fun j _ hj => placePiece_board_ne p (fun h => hj h.1))
    h0 (placePiece_board_self x y p)

theorem rowSum_place_other {s : GameState} {x y y' : Nat} {p : Int} (hne : y' ≠ y) :
    rowSum (placePiece s x y p) y' = rowSum s y' := by
  unfold rowSum
  simp only [placePiece_GRID_SIZE]
  exact Finset.sum_congr rfl (fun j _ => placePiece_board_ne p (fun h => hne h.2))

theorem countDiag_place_self {s : GameState} {x : Nat} {p : Int}
    (hx : x < s.GRID_SIZE) (h0 : s.board x x = 0) (hp : p ≠ 0) :
    countDiag (placePiece s x x p) p = countDiag s p + 1 := by
  unfold countDiag
  simp only [placePiece_GRID_SIZE]
  exact filter_card_point_update (Finset.mem_range.mpr hx)
    (fun j _ hj => by rw [placePiece_board_ne p (fun h => hj h.1)])
    (fun h => hp (by rw [h0] at h; exact h.symm))
    (placePiece_board_self x x p)

theorem countDiag_place_mono {s : GameState} {x y : Nat} {p v : Int}
    (h0 : s.board x y = 0) (hv : v ≠ 0) :
    countDiag s v ≤ countDiag (placePiece s x y p) v := by
  unfold countDiag
  simp only [placePiece_GRID_SIZE]
  apply filter_card_point_mono
  intro j _ hj
  by_cases h : j = x ∧ j = y
  · exfalso
    obtain ⟨h1, h2⟩ := h
    subst h1
    subst h2
    exact hv (by rw [← hj, h0])
  · rw [placePiece_board_ne p h]
    exact hj

theorem countAnti_place_self {s : GameState} {x y : Nat} {p : Int}
    (hx : x < s.GRID_SIZE) (hxy : y = s.GRID_SIZE - 1 - x)
    (h0 : s.board x y = 0) (hp : p ≠ 0) :
    countAnti (placePiece s x y p) p = countAnti s p + 1 := by
  unfold countAnti
  simp only [placePiece_GRID_SIZE]
  refine filter_card_point_update (Finset.mem_range.mpr hx)
    (fun j _ hj => by rw [placePiece_board_ne p (fun h => hj h.1)]) ?_ ?_
  · intro h
    rw [← hxy] at h
    exact hp (by rw [h0] at h; exact h.symm)
  · rw [← hxy]
    exact placePiece_board_self x y p

theorem countAnti_place_mono {s : GameState} {x y : Nat} {p v : Int}
    (h0 : s.board x y = 0) (hv : v ≠ 0) :
    countAnti s v ≤ countAnti (placePiece s x y p) v := by
  unfold countAnti
  simp only [placePiece_GRID_SIZE]
  apply filter_card_point_mono
  intro j _ hj
  by_cases h : j = x ∧ s.GRID_SIZE - 1 - j = y
  · exfalso
    obtain ⟨h1, h2⟩ := h
    subst h1
    rw [h2] at hj
    exact hv (by rw [← hj, h0])
  · rw [placePiece_board_ne p h]
    exact hj

theorem occupiedCount_place {s : GameState} {x y : Nat} {p : Int}
    (hx : x < s.GRID_SIZE) (hy : y < s.GRID_SIZE)
    (h0 : s.board x y = 0) (hp : p ≠ 0) :
    occupiedCount (placePiece s x y p) = occupiedCount s + 1 := by
  unfold occupiedCount
  simp only [placePiece_GRID_SIZE]
  refine filter_card_point_update (a := (x, y))
    (Finset.mem_product.mpr ⟨Finset.mem_range.mpr hx, Finset.mem_range.mpr hy⟩)
    (fun q _ hq => ?_) (fun h => h h0) ?_
  · rw [placePiece_board_ne p (fun h => hq (Prod.ext_iff.mpr ⟨h.1, h.2⟩))]
  · show (placePiece s x y p).board x y ≠ 0
    rw [placePiece_board_self]
    exact hp

theorem occupiedCount_le (s : GameState) :
    occupiedCount s ≤ s.GRID_SIZE * s.GRID_SIZE := by
  have h := Finset.card_filter_le
    ((Finset.range s.GRID_SIZE) ×ˢ (Finset.range s.GRID_SIZE))
    (fun q => s.board q.1 q.2 ≠ 0)
  rw [Finset.card_product, Finset.card_range] at h
  exact h

/-! ## Congruence lemmas for board-derived quantities -/

theorem colSum_congr {s t : GameState} (hb : s.board = t.board)
    (hg : s.GRID_SIZE = t.GRID_SIZE) (x : Nat) : colSum s x = colSum t x := by
  unfold colSum
  rw [hb, hg]

theorem rowSum_congr {s t : GameState} (hb : s.board = t.board)
    (hg : s.GRID_SIZE = t.GRID_SIZE) (y : Nat) : rowSum s y = rowSum t y := by
  unfold rowSum
  rw [hb, hg]

theorem countDiag_congr {s t : GameState} (hb : s.board = t.board)
    (hg : s.GRID_SIZE = t.GRID_SIZE) (v : Int) : countDiag s v = countDiag t v := by
  unfold countDiag
  rw [hb, hg]

theorem countAnti_congr {s t : GameState} (hb : s.board = t.board)
    (hg : s.GRID_SIZE = t.GRID_SIZE) (v : Int) : countAnti s v = countAnti t v := by
  unfold countAnti
  rw [hb, hg]

theorem occupiedCount_congr {s t : GameState} (hb : s.board = t.board)
    (hg : s.GRID_SIZE = t.GRID_SIZE) : occupiedCount s = occupiedCount t := by
  unfold occupiedCount
  rw [hb, hg]

/-! ## `endTurn` field lemmas -/

theorem endTurn_GRID_SIZE (s : GameState) : (endTurn s).1.GRID_SIZE = s.GRID_SIZE := by
  unfold endTurn
  dsimp only
  split_ifs <;> rfl

theorem endTurn_board (s : GameState) : (endTurn s).1.board = s.board := by
  unfold endTurn
  dsimp only
  split_ifs <;> rfl

theorem endTurn_lineSums (s : GameState) : (endTurn s).1.lineSums = s.lineSums := by
  unfold endTurn
  dsimp only
  split_ifs <;> rfl

theorem endTurn_turnCount (s : GameState) : (endTurn s).1.turnCount = s.turnCount + 1 := by
  unfold endTurn
  dsimp only
  split_ifs <;> rfl

theorem endTurn_victoryFlag (s : GameState) : (endTurn s).1.victoryFlag = s.victoryFlag := by
  unfold endTurn
  dsimp only
  split_ifs <;> rfl

theorem endTurn_currentPlayer_cases (s : GameState) :
    (endTurn s).1.currentPlayer = s.currentPlayer ∨
    (endTurn s).1.currentPlayer =
      (if s.currentPlayer = PLAYER_ONE then PLAYER_TWO else PLAYER_ONE) := by
  unfold endTurn
  dsimp only
  split_ifs <;> simp

theorem endTurn_gameOver_iff (s : GameState) (hgo : s.gameOver = false) :
    (endTurn s).1.gameOver = true ↔
      (s.victoryFlag = true ∨ s.GRID_SIZE * s.GRID_SIZE ≤ s.turnCount + 1) := by
  unfold endTurn
  dsimp only
  split_ifs with h1 h2 h3 <;> simp_all

/-! ## The reachable-state invariant -/

/-- The inductive invariant of the engine, for a game of grid size `n`:
the line-sum table has its intended length; board cells hold only
`0`/`PLAYER_ONE`/`PLAYER_TWO`, and only inside the grid; the column and row
entries of `lineSums` are exactly the column and row sums of the board; the
diagonal entries are differences `a - b` where `a` (resp. `b`) counts at
most the `PLAYER_ONE` (resp. `PLAYER_TWO`) cells of that diagonal (only "at
most": the source skips a diagonal update once the victory flag is set);
`turnCount` counts the occupied cells; a set victory flag means the game is
over; and `gameOver` holds exactly when a line sum reached `±n` or the
board is full. -/
structure Inv (n : Nat) (s : GameState) : Prop where
  size : s.GRID_SIZE = n
  len : s.lineSums.length = 2 * n + 2
  cellVals : ∀ x y, s.board x y = 0 ∨ s.board x y = PLAYER_ONE ∨ s.board x y = PLAYER_TWO
  outside : ∀ x y, n ≤ x ∨ n ≤ y → s.board x y = 0
  curOk : s.currentPlayer = PLAYER_ONE ∨ s.currentPlayer = PLAYER_TWO
  colOk : ∀ x, x < n → s.lineSums.getD x 0 = colSum s x
  rowOk : ∀ y, y < n → s.lineSums.getD (n + y) 0 = rowSum s y
  diagOk : ∃ a b : Nat, s.lineSums.getD (n * 2) 0 = (a : Int) - (b : Int) ∧
    a ≤ countDiag s PLAYER_ONE ∧ b ≤ countDiag s PLAYER_TWO
  antiOk : ∃ a b : Nat, s.lineSums.getD (n * 2 + 1) 0 = (a : Int) - (b : Int) ∧
    a ≤ countAnti s PLAYER_ONE ∧ b ≤ countAnti s PLAYER_TWO
  turnOk : s.turnCount = occupiedCount s
  vfImp : s.victoryFlag = true → s.gameOver = true
  overIff : s.gameOver = true ↔
    (∃ i, i < 2 * n + 2 ∧ (s.lineSums.getD i 0).natAbs = n) ∨ s.turnCount = n * n

theorem initState_lineSums (n : Nat) :
    (initState n).lineSums = List.replicate (n * 2 + 2) 0 := rfl

theorem Inv_initState {n : Nat} (hn : 1 ≤ n) : Inv n (initState n) := by
  have hnn : 0 < n * n := Nat.mul_pos hn hn
  refine ⟨rfl, ?_, ?_, ?_, Or.inl rfl, ?_, ?_, ?_, ?_, ?_, ?_, ?_⟩
  · rw [initState_lineSums, List.length_replicate]
    omega
  · intro x y
    exact Or.inl rfl
  · intro x y _
    rfl
  · intro x _
    rw [initState_lineSums, getD_replicate_zero]
    exact (Finset.sum_const_zero).symm
  · intro y _
    rw [initState_lineSums, getD_replicate_zero]
    exact (Finset.sum_const_zero).symm
  · exact ⟨0, 0, by rw [initState_lineSums, getD_replicate_zero]; norm_num,
      Nat.zero_le _, Nat.zero_le _⟩
  · exact ⟨0, 0, by rw [initState_lineSums, getD_replicate_zero]; norm_num,
      Nat.zero_le _, Nat.zero_le _⟩
  · show 0 = occupiedCount (initState n)
    unfold occupiedCount
    simp [initState, resetGame, blankState]
  · intro h
    exact absurd h (by simp [initState, resetGame, blankState])
  · constructor
    · intro h
      exact absurd h (by simp [initState, resetGame, blankState])
    · rintro (⟨i, _, habs⟩ | ht)
      · rw [initState_lineSums, getD_replicate_zero] at habs
        simp at habs
        omega
      · exfalso
        have h0 : (initState n).turnCount = 0 := rfl
        rw [h0] at ht
        omega

/-- A state differing only in its message satisfies the same invariant. -/
theorem Inv_message {n : Nat} {s : GameState} (h : Inv n s) (m : String) :
    Inv n { s with message := m } :=
  ⟨h.size, h.len, h.cellVals, h.outside, h.curOk, h.colOk, h.rowOk, h.diagOk,
    h.antiOk, h.turnOk, h.vfImp, h.overIff⟩

/-- `resetGame` on any state of the right grid size lands on `initState`. -/
theorem resetGame_eq_initState {n : Nat} {s : GameState} (h : s.GRID_SIZE = n) :
    resetGame s = initState n := by
  subst h
  rfl

/-- One accepted move from an invariant-satisfying ongoing state keeps the
invariant, and the victory flag / outcome of that move are characterized by
whether some line sum reached `±n`. -/
theorem Inv_accepted {n : Nat} {s : GameState} {p : Int} {x y : Nat}
    (_hn : 1 ≤ n) (hInv : Inv n s) (hp : p = PLAYER_ONE ∨ p = PLAYER_TWO)
    (hx : x < n) (hy : y < n) (hgo : s.gameOver = false)
    (hcur : p = s.currentPlayer) (h0 : s.board x y = 0) :
    Inv n (endTurn (takeTurn s x y p)).1 ∧
    ((endTurn (takeTurn s x y p)).1.victoryFlag = true ↔
      ∃ i, i < 2 * n + 2 ∧
        ((endTurn (takeTurn s x y p)).1.lineSums.getD i 0).natAbs = n) ∧
    ((∃ i, i < 2 * n + 2 ∧
        ((endTurn (takeTurn s x y p)).1.lineSums.getD i 0).natAbs = n) →
      (endTurn (takeTurn s x y p)).2 = Outcome.win p) ∧
    (¬ (∃ i, i < 2 * n + 2 ∧
        ((endTurn (takeTurn s x y p)).1.lineSums.getD i 0).natAbs = n) →
      (endTurn (takeTurn s x y p)).1.turnCount = n * n →
      (endTurn (takeTurn s x y p)).2 = Outcome.draw) := by
  have hp1 : p = 1 ∨ p = -1 := hp
  have hpne : p ≠ 0 := by rcases hp1 with h | h <;> simp [h]
  have hxs : x < s.GRID_SIZE := by rw [hInv.size]; exact hx
  have hys : y < s.GRID_SIZE := by rw [hInv.size]; exact hy
  have hu : takeTurn s x y p = updateVictoryConditions (placePiece s x y p) x y p := rfl
  obtain ⟨len2, gx2, gy2, gdiag, ganti, gdiag_ne, ganti_ne, gother, gvf⟩ :=
    uVC_spec hu (by rw [placePiece_GRID_SIZE]; exact hxs)
      (by rw [placePiece_GRID_SIZE]; exact hys)
      (by rw [placePiece_lineSums, placePiece_GRID_SIZE, hInv.size]; exact hInv.len) hp1
  simp only [placePiece_lineSums, placePiece_GRID_SIZE, hInv.size] at len2 gx2 gy2
  simp only [placePiece_lineSums, placePiece_GRID_SIZE, hInv.size] at gdiag ganti
  simp only [placePiece_lineSums, placePiece_GRID_SIZE, hInv.size] at gdiag_ne ganti_ne
  simp only [placePiece_lineSums, placePiece_GRID_SIZE, hInv.size] at gother gvf
  -- facts about the state after takeTurn
  have hgrid2 : (takeTurn s x y p).GRID_SIZE = n := hInv.size
  have htc2 : (takeTurn s x y p).turnCount = s.turnCount := rfl
  have hgo2 : (takeTurn s x y p).gameOver = false := hgo
  have hcur2 : (takeTurn s x y p).currentPlayer = s.currentPlayer := rfl
  -- no line sum was at ±n before the move, and the board was not full
  have hpre : ∀ i, i < 2 * n + 2 → (s.lineSums.getD i 0).natAbs ≠ n := by
    intro i hi habs
    have h := hInv.overIff.mpr (Or.inl ⟨i, hi, habs⟩)
    rw [hgo] at h
    exact absurd h (by simp)
  have htlt : s.turnCount < n * n := by
    have h2 := occupiedCount_le s
    rw [hInv.size] at h2
    have h3 : s.turnCount ≠ n * n := by
      intro h
      have hh := hInv.overIff.mpr (Or.inr h)
      rw [hgo] at hh
      exact absurd hh (by simp)
    have h1 := hInv.turnOk
    omega
  have hvfiff : (takeTurn s x y p).victoryFlag = true ↔
      ∃ i, i < 2 * n + 2 ∧ ((takeTurn s x y p).lineSums.getD i 0).natAbs = n := by
    rw [gvf]
    constructor
    · rintro ⟨i, hi, hnew, _⟩
      exact ⟨i, hi, hnew⟩
    · rintro ⟨i, hi, hnew⟩
      exact ⟨i, hi, hnew, hpre i hi⟩
  -- facts about the state after endTurn
  have hbP : (endTurn (takeTurn s x y p)).1.board = (placePiece s x y p).board := by
    rw [endTurn_board, hu, uVC_board]
  have hgP : (endTurn (takeTurn s x y p)).1.GRID_SIZE = (placePiece s x y p).GRID_SIZE := by
    rw [endTurn_GRID_SIZE, hu, uVC_GRID_SIZE]
  have hlsP : (endTurn (takeTurn s x y p)).1.lineSums = (takeTurn s x y p).lineSums :=
    endTurn_lineSums _
  have htcP : (endTurn (takeTurn s x y p)).1.turnCount = s.turnCount + 1 := by
    rw [endTurn_turnCount, htc2]
  have hvfP : (endTurn (takeTurn s x y p)).1.victoryFlag = (takeTurn s x y p).victoryFlag :=
    endTurn_victoryFlag _
  have hgoiff : (endTurn (takeTurn s x y p)).1.gameOver = true ↔
      ((takeTurn s x y p).victoryFlag = true ∨ n * n ≤ s.turnCount + 1) := by
    have h := endTurn_gameOver_iff (takeTurn s x y p) hgo2
    rwa [hgrid2, htc2] at h
  refine ⟨?_, ?_, ?_, ?_⟩
  · -- the invariant is preserved
    refine ⟨by rw [hgP, placePiece_GRID_SIZE, hInv.size], by rw [hlsP]; exact len2,
      ?_, ?_, ?_, ?_, ?_, ?_, ?_, ?_, ?_, ?_⟩
    · -- cellVals
      intro a b
      rw [hbP]
      by_cases h : a = x ∧ b = y
      · obtain ⟨h1, h2⟩ := h
        subst h1; subst h2
        rw [placePiece_board_self]
        rcases hp with h | h
        · exact Or.inr (Or.inl h)
        · exact Or.inr (Or.inr h)
      · rw [placePiece_board_ne p h]
        exact hInv.cellVals a b
    · -- outside
      intro a b hab
      rw [hbP]
      rw [placePiece_board_ne p ?_]
      · exact hInv.outside a b hab
      · rintro ⟨rfl, rfl⟩
        rcases hab with h | h
        · exact absurd (lt_of_lt_of_le hx h) (lt_irrefl _)
        · exact absurd (lt_of_lt_of_le hy h) (lt_irrefl _)
    · -- curOk
      rcases endTurn_currentPlayer_cases (takeTurn s x y p) with h | h
      · rw [h, hcur2]
        exact hInv.curOk
      · rw [h, hcur2]
        by_cases hc : s.currentPlayer = PLAYER_ONE
        · rw [if_pos hc]
          exact Or.inr rfl
        · rw [if_neg hc]
          exact Or.inl rfl
    · -- colOk
      intro x' hx'
      rw [hlsP, colSum_congr hbP hgP x']
      by_cases h : x' = x
      · subst h
        rw [gx2, hInv.colOk x' hx', colSum_place_self hys h0]
      · rw [gother x' h (by omega) (by omega) (by omega),
          colSum_place_other h, hInv.colOk x' hx']
    · -- rowOk
      intro y' hy'
      rw [hlsP, rowSum_congr hbP hgP y']
      by_cases h : y' = y
      · subst h
        rw [gy2, hInv.rowOk y' hy', rowSum_place_self hxs h0]
      · rw [gother (n + y') (by omega) (by omega) (by omega) (by omega),
          rowSum_place_other h, hInv.rowOk y' hy']
    · -- diagOk
      obtain ⟨a, b, hab, ha, hb⟩ := hInv.diagOk
      rw [hlsP]
      have hmono1 : countDiag s PLAYER_ONE ≤
          countDiag (endTurn (takeTurn s x y p)).1 PLAYER_ONE := by
        rw [countDiag_congr hbP hgP]
        exact countDiag_place_mono h0 (by decide)
      have hmono2 : countDiag s PLAYER_TWO ≤
          countDiag (endTurn (takeTurn s x y p)).1 PLAYER_TWO := by
        rw [countDiag_congr hbP hgP]
        exact countDiag_place_mono h0 (by decide)
      rcases gdiag with ⟨hxy, hbump⟩ | hsame
      · subst hxy
        rcases hp with hpv | hpv
        · refine ⟨a + 1, b, ?_, ?_, le_trans hb hmono2⟩
          · rw [hbump, hab, hpv]
            show (a : Int) - b + 1 = (a + 1 : Nat) - b
            push_cast
            ring
          · rw [countDiag_congr hbP hgP, hpv]
            have hcd := countDiag_place_self (p := PLAYER_ONE) hxs h0 (by decide)
            rw [hcd]
            omega
        · refine ⟨a, b + 1, ?_, le_trans ha hmono1, ?_⟩
          · rw [hbump, hab, hpv]
            show (a : Int) - b + -1 = (a : Int) - (b + 1 : Nat)
            push_cast
            ring
          · rw [countDiag_congr hbP hgP, hpv]
            have hcd := countDiag_place_self (p := PLAYER_TWO) hxs h0 (by decide)
            rw [hcd]
            omega
      · exact ⟨a, b, by rw [hsame, hab], le_trans ha hmono1, le_trans hb hmono2⟩
    · -- antiOk
      obtain ⟨a, b, hab, ha, hb⟩ := hInv.antiOk
      rw [hlsP]
      have hmono1 : countAnti s PLAYER_ONE ≤
          countAnti (endTurn (takeTurn s x y p)).1 PLAYER_ONE := by
        rw [countAnti_congr hbP hgP]
        exact countAnti_place_mono h0 (by decide)
      have hmono2 : countAnti s PLAYER_TWO ≤
          countAnti (endTurn (takeTurn s x y p)).1 PLAYER_TWO := by
        rw [countAnti_congr hbP hgP]
        exact countAnti_place_mono h0 (by decide)
      rcases ganti with ⟨hAy, hbump⟩ | hsame
      · have hAy' : y = s.GRID_SIZE - 1 - x := by rw [hInv.size]; exact hAy
        rcases hp with hpv | hpv
        · refine ⟨a + 1, b, ?_, ?_, le_trans hb hmono2⟩
          · rw [hbump, hab, hpv]
            show (a : Int) - b + 1 = (a + 1 : Nat) - b
            push_cast
            ring
          · rw [countAnti_congr hbP hgP, hpv]
            have hca := countAnti_place_self (p := PLAYER_ONE) hxs hAy' h0 (by decide)
            rw [hca]
            omega
        · refine ⟨a, b + 1, ?_, le_trans ha hmono1, ?_⟩
          · rw [hbump, hab, hpv]
            show (a : Int) - b + -1 = (a : Int) - (b + 1 : Nat)
            push_cast
            ring
          · rw [countAnti_congr hbP hgP, hpv]
            have hca := countAnti_place_self (p := PLAYER_TWO) hxs hAy' h0 (by decide)
            rw [hca]
            omega
      · exact ⟨a, b, by rw [hsame, hab], le_trans ha hmono1, le_trans hb hmono2⟩
    · -- turnOk
      rw [htcP, occupiedCount_congr hbP hgP, occupiedCount_place hxs hys h0 hpne,
        hInv.turnOk]
    · -- vfImp
      intro hv
      rw [hvfP] at hv
      exact hgoiff.mpr (Or.inl hv)
    · -- overIff
      rw [hgoiff, htcP]
      constructor
      · rintro (hv | hle)
        · exact Or.inl (by rw [hlsP]; exact hvfiff.mp hv)
        · exact Or.inr (by omega)
      · rintro (hE | ht)
        · exact Or.inl (hvfiff.mpr (by rw [hlsP] at hE; exact hE))
        · exact Or.inr (by omega)
  · -- victory flag iff some sum reached ±n
    rw [hvfP, hlsP]
    exact hvfiff
  · -- a line at ±n means the outcome is a win for the mover
    intro hE
    rw [hlsP] at hE
    have hvf : (takeTurn s x y p).victoryFlag = true := hvfiff.mpr hE
    rw [endTurn_vf hvf]
    show Outcome.win ((takeTurn s x y p).currentPlayer) = Outcome.win p
    rw [hcur2, ← hcur]
  · -- no line at ±n on a full board means a draw
    intro hnE hfull
    rw [hlsP] at hnE
    have hvf : (takeTurn s x y p).victoryFlag = false :=
      eq_false_of_ne_true (fun h => hnE (hvfiff.mp h))
    rw [htcP] at hfull
    have h2 : (takeTurn s x y p).GRID_SIZE * (takeTurn s x y p).GRID_SIZE ≤
        (takeTurn s x y p).turnCount + 1 := by
      rw [hgrid2, htc2]
      omega
    rw [endTurn_tie hvf h2]

/-- Any `drop` (accepted or rejected) preserves the invariant. -/
theorem Inv_drop {n : Nat} {s : GameState} {p : Int} {x y : Nat}
    (hn : 1 ≤ n) (hInv : Inv n s)
    (hp : p = PLAYER_ONE ∨ p = PLAYER_TWO) (hx : x < n) (hy : y < n) :
    Inv n (drop s p x y).1 := by
  by_cases hgo : s.gameOver = false
  · by_cases hcur : p = s.currentPlayer
    · by_cases hocc : isOccupied s x y = false
      · rw [drop_accepted hgo hcur hocc]
        have h0 : s.board x y = 0 := by simpa [isOccupied] using hocc
        exact (Inv_accepted hn hInv hp hx hy hgo hcur h0).1
      · have hocc' : isOccupied s x y = true := by
          cases h : isOccupied s x y
          · exact absurd h hocc
          · rfl
        rw [drop_occupied hgo hcur hocc']
        exact Inv_message hInv _
    · rw [drop_wrong_player hgo hcur]
      exact Inv_message hInv _
  · have hgo' : s.gameOver = true := by
      cases h : s.gameOver
      · exact absurd h hgo
      · rfl
    rw [drop_over hgo']
    exact Inv_message hInv _

/-- Every reachable state satisfies the invariant. -/
theorem reachable_inv {n : Nat} {s : GameState} (hn : 1 ≤ n) (hr : Reachable n s) :
    Inv n s := by
  induction hr with
  | init => exact Inv_initState hn
  | reset t _ ih =>
    rw [resetGame_eq_initState ih.size]
    exact Inv_initState hn
  | move t p x y _ hp hx hy ih => exact Inv_drop hn ih hp hx hy

/-! ## Characterizing sums of `{-1, 0, 1}`-valued functions -/

theorem sum_natAbs_le {t : Finset ℕ} {f : ℕ → Int}
    (h : ∀ j ∈ t, f j = 0 ∨ f j = 1 ∨ f j = -1) :
    (∑ j ∈ t, f j).natAbs ≤ t.card := by
  have h1 : |∑ j ∈ t, f j| ≤ ∑ j ∈ t, |f j| := Finset.abs_sum_le_sum_abs f t
  have h2 : ∑ j ∈ t, |f j| ≤ ∑ _j ∈ t, (1 : Int) :=
    Finset.sum_le_sum (fun j hj => by rcases h j hj with h' | h' | h' <;> simp [h'])
  rw [Finset.sum_const, nsmul_eq_mul, mul_one] at h2
  have h3 := le_trans h1 h2
  rw [abs_le] at h3
  omega

theorem sum_eq_card_iff_all_one {t : Finset ℕ} {f : ℕ → Int} (h : ∀ j ∈ t, f j ≤ 1) :
    (∑ j ∈ t, f j = (t.card : Int)) ↔ ∀ j ∈ t, f j = 1 := by
  constructor
  · intro hs j hj
    have he : ∑ j ∈ t, f j = ∑ _j ∈ t, (1 : Int) := by
      rw [hs, Finset.sum_const, nsmul_eq_mul, mul_one]
    exact (Finset.sum_eq_sum_iff_of_le h).mp he j hj
  · intro ha
    rw [Finset.sum_congr rfl ha, Finset.sum_const, nsmul_eq_mul, mul_one]

theorem sum_eq_neg_card_iff_all_negone {t : Finset ℕ} {f : ℕ → Int}
    (h : ∀ j ∈ t, -1 ≤ f j) :
    (∑ j ∈ t, f j = -(t.card : Int)) ↔ ∀ j ∈ t, f j = -1 := by
  have h' : ∀ j ∈ t, -f j ≤ 1 := fun j hj => by have := h j hj; omega
  have base := sum_eq_card_iff_all_one (f := fun j => -f j) h'
  rw [Finset.sum_neg_distrib] at base
  constructor
  · intro hs j hj
    have h1 := base.mp (by rw [hs]; ring) j hj
    simp only at h1
    omega
  · intro ha
    have hall : ∀ j ∈ t, -f j = 1 := fun j hj => by have := ha j hj; omega
    have h2 := base.mpr hall
    omega

/-! ## Line-sum characterizations derivable from the invariant -/

theorem Inv_lineSum_abs_le {n : Nat} {s : GameState} (hInv : Inv n s) :
    ∀ i, i < 2 * n + 2 → (s.lineSums.getD i 0).natAbs ≤ n := by
  have hsz := hInv.size
  subst hsz
  intro i hi
  by_cases h1 : i < s.GRID_SIZE
  · rw [hInv.colOk i h1]
    unfold colSum
    have := sum_natAbs_le (t := Finset.range s.GRID_SIZE) (f := fun j => s.board i j)
      (fun j _ => hInv.cellVals i j)
    rwa [Finset.card_range] at this
  · by_cases h2 : i < 2 * s.GRID_SIZE
    · have hiy : i = s.GRID_SIZE + (i - s.GRID_SIZE) := by omega
      rw [hiy, hInv.rowOk (i - s.GRID_SIZE) (by omega)]
      unfold rowSum
      have := sum_natAbs_le (t := Finset.range s.GRID_SIZE)
        (f := fun j => s.board j (i - s.GRID_SIZE))
        (fun j _ => hInv.cellVals j (i - s.GRID_SIZE))
      rwa [Finset.card_range] at this
    · have hc1 : countDiag s PLAYER_ONE ≤ s.GRID_SIZE := by
        have h := Finset.card_filter_le (Finset.range s.GRID_SIZE)
          (fun i => s.board i i = PLAYER_ONE)
        unfold countDiag
        rwa [Finset.card_range] at h
      have hc2 : countDiag s PLAYER_TWO ≤ s.GRID_SIZE := by
        have h := Finset.card_filter_le (Finset.range s.GRID_SIZE)
          (fun i => s.board i i = PLAYER_TWO)
        unfold countDiag
        rwa [Finset.card_range] at h
      have ha1 : countAnti s PLAYER_ONE ≤ s.GRID_SIZE := by
        have h := Finset.card_filter_le (Finset.range s.GRID_SIZE)
          (fun i => s.board i (s.GRID_SIZE - 1 - i) = PLAYER_ONE)
        unfold countAnti
        rwa [Finset.card_range] at h
      have ha2 : countAnti s PLAYER_TWO ≤ s.GRID_SIZE := by
        have h := Finset.card_filter_le (Finset.range s.GRID_SIZE)
          (fun i => s.board i (s.GRID_SIZE - 1 - i) = PLAYER_TWO)
        unfold countAnti
        rwa [Finset.card_range] at h
      by_cases h3 : i = s.GRID_SIZE * 2
      · obtain ⟨a, b, hab, ha, hb⟩ := hInv.diagOk
        rw [h3, hab]
        omega
      · have h4 : i = s.GRID_SIZE * 2 + 1 := by omega
        obtain ⟨a, b, hab, ha, hb⟩ := hInv.antiOk
        rw [h4, hab]
        omega

theorem Inv_col_iff {n : Nat} {s : GameState} (hInv : Inv n s) (x : Nat) (hx : x < n) :
    (s.lineSums.getD x 0 = (n : Int) ↔ ∀ y, y < n → s.board x y = PLAYER_ONE) ∧
    (s.lineSums.getD x 0 = -(n : Int) ↔ ∀ y, y < n → s.board x y = PLAYER_TWO) := by
  have hsz := hInv.size
  subst hsz
  rw [hInv.colOk x hx]
  unfold colSum
  have hle : ∀ j ∈ Finset.range s.GRID_SIZE, s.board x j ≤ 1 := by
    intro j _
    rcases hInv.cellVals x j with h | h | h <;> rw [h] <;> decide
  have hge : ∀ j ∈ Finset.range s.GRID_SIZE, -1 ≤ s.board x j := by
    intro j _
    rcases hInv.cellVals x j with h | h | h <;> rw [h] <;> decide
  have hcast : ((s.GRID_SIZE : Int)) = ((Finset.range s.GRID_SIZE).card : Int) := by
    rw [Finset.card_range]
  constructor
  · rw [hcast, sum_eq_card_iff_all_one hle]
    constructor
    · intro h y hy
      exact h y (Finset.mem_range.mpr hy)
    · intro h j hj
      exact h j (Finset.mem_range.mp hj)
  · rw [hcast, sum_eq_neg_card_iff_all_negone hge]
    constructor
    · intro h y hy
      exact h y (Finset.mem_range.mpr hy)
    · intro h j hj
      exact h j (Finset.mem_range.mp hj)

theorem Inv_row_iff {n : Nat} {s : GameState} (hInv : Inv n s) (y : Nat) (hy : y < n) :
    (s.lineSums.getD (n + y) 0 = (n : Int) ↔ ∀ x, x < n → s.board x y = PLAYER_ONE) ∧
    (s.lineSums.getD (n + y) 0 = -(n : Int) ↔ ∀ x, x < n → s.board x y = PLAYER_TWO) := by
  have hsz := hInv.size
  subst hsz
  rw [hInv.rowOk y hy]
  unfold rowSum
  have hle : ∀ j ∈ Finset.range s.GRID_SIZE, s.board j y ≤ 1 := by
    intro j _
    rcases hInv.cellVals j y with h | h | h <;> rw [h] <;> decide
  have hge : ∀ j ∈ Finset.range s.GRID_SIZE, -1 ≤ s.board j y := by
    intro j _
    rcases hInv.cellVals j y with h | h | h <;> rw [h] <;> decide
  have hcast : ((s.GRID_SIZE : Int)) = ((Finset.range s.GRID_SIZE).card : Int) := by
    rw [Finset.card_range]
  constructor
  · rw [hcast, sum_eq_card_iff_all_one hle]
    constructor
    · intro h x hx
      exact h x (Finset.mem_range.mpr hx)
    · intro h j hj
      exact h j (Finset.mem_range.mp hj)
  · rw [hcast, sum_eq_neg_card_iff_all_negone hge]
    constructor
    · intro h x hx
      exact h x (Finset.mem_range.mpr hx)
    · intro h j hj
      exact h j (Finset.mem_range.mp hj)

theorem Inv_diag_imp {n : Nat} {s : GameState} (hInv : Inv n s) :
    (s.lineSums.getD (n * 2) 0 = (n : Int) → ∀ i, i < n → s.board i i = PLAYER_ONE) ∧
    (s.lineSums.getD (n * 2) 0 = -(n : Int) → ∀ i, i < n → s.board i i = PLAYER_TWO) := by
  have hsz := hInv.size
  subst hsz
  obtain ⟨a, b, hab, ha, hb⟩ := hInv.diagOk
  have hle1 : countDiag s PLAYER_ONE ≤ s.GRID_SIZE := by
    have h := Finset.card_filter_le (Finset.range s.GRID_SIZE)
      (fun i => s.board i i = PLAYER_ONE)
    unfold countDiag
    rwa [Finset.card_range] at h
  have hle2 : countDiag s PLAYER_TWO ≤ s.GRID_SIZE := by
    have h := Finset.card_filter_le (Finset.range s.GRID_SIZE)
      (fun i => s.board i i = PLAYER_TWO)
    unfold countDiag
    rwa [Finset.card_range] at h
  constructor
  · intro h i hi
    rw [hab] at h
    have hcnt : countDiag s PLAYER_ONE = s.GRID_SIZE := by omega
    unfold countDiag at hcnt
    have heq := Finset.eq_of_subset_of_card_le
      (Finset.filter_subset (fun i => s.board i i = PLAYER_ONE) (Finset.range s.GRID_SIZE))
      (le_of_eq (by rw [Finset.card_range, hcnt]))
    have hmem : i ∈ Finset.filter (fun i => s.board i i = PLAYER_ONE)
        (Finset.range s.GRID_SIZE) := by
      rw [heq]
      exact Finset.mem_range.mpr hi
    exact (Finset.mem_filter.mp hmem).2
  · intro h i hi
    rw [hab] at h
    have hcnt : countDiag s PLAYER_TWO = s.GRID_SIZE := by omega
    unfold countDiag at hcnt
    have heq := Finset.eq_of_subset_of_card_le
      (Finset.filter_subset (fun i => s.board i i = PLAYER_TWO) (Finset.range s.GRID_SIZE))
      (le_of_eq (by rw [Finset.card_range, hcnt]))
    have hmem : i ∈ Finset.filter (fun i => s.board i i = PLAYER_TWO)
        (Finset.range s.GRID_SIZE) := by
      rw [heq]
      exact Finset.mem_range.mpr hi
    exact (Finset.mem_filter.mp hmem).2

theorem Inv_anti_imp {n : Nat} {s : GameState} (hInv : Inv n s) :
    (s.lineSums.getD (n * 2 + 1) 0 = (n : Int) →
      ∀ i, i < n → s.board i (n - 1 - i) = PLAYER_ONE) ∧
    (s.lineSums.getD (n * 2 + 1) 0 = -(n : Int) →
      ∀ i, i < n → s.board i (n - 1 - i) = PLAYER_TWO) := by
  have hsz := hInv.size
  subst hsz
  obtain ⟨a, b, hab, ha, hb⟩ := hInv.antiOk
  have hle1 : countAnti s PLAYER_ONE ≤ s.GRID_SIZE := by
    have h := Finset.card_filter_le (Finset.range s.GRID_SIZE)
      (fun i => s.board i (s.GRID_SIZE - 1 - i) = PLAYER_ONE)
    unfold countAnti
    rwa [Finset.card_range] at h
  have hle2 : countAnti s PLAYER_TWO ≤ s.GRID_SIZE := by
    have h := Finset.card_filter_le (Finset.range s.GRID_SIZE)
      (fun i => s.board i (s.GRID_SIZE - 1 - i) = PLAYER_TWO)
    unfold countAnti
    rwa [Finset.card_range] at h
  constructor
  · intro h i hi
    rw [hab] at h
    have hcnt : countAnti s PLAYER_ONE = s.GRID_SIZE := by omega
    unfold countAnti at hcnt
    have heq := Finset.eq_of_subset_of_card_le
      (Finset.filter_subset (fun i => s.board i (s.GRID_SIZE - 1 - i) = PLAYER_ONE)
        (Finset.range s.GRID_SIZE))
      (le_of_eq (by rw [Finset.card_range, hcnt]))
    have hmem : i ∈ Finset.filter (fun i => s.board i (s.GRID_SIZE - 1 - i) = PLAYER_ONE)
        (Finset.range s.GRID_SIZE) := by
      rw [heq]
      exact Finset.mem_range.mpr hi
    exact (Finset.mem_filter.mp hmem).2
  · intro h i hi
    rw [hab] at h
    have hcnt : countAnti s PLAYER_TWO = s.GRID_SIZE := by omega
    unfold countAnti at hcnt
    have heq := Finset.eq_of_subset_of_card_le
      (Finset.filter_subset (fun i => s.board i (s.GRID_SIZE - 1 - i) = PLAYER_TWO)
        (Finset.range s.GRID_SIZE))
      (le_of_eq (by rw [Finset.card_range, hcnt]))
    have hmem : i ∈ Finset.filter (fun i => s.board i (s.GRID_SIZE - 1 - i) = PLAYER_TWO)
        (Finset.range s.GRID_SIZE) := by
      rw [heq]
      exact Finset.mem_range.mpr hi
    exact (Finset.mem_filter.mp hmem).2

/-! ## Claim C1 -/

/-- The reachable state (for a 1×1 game) in which `PLAYER_ONE` has dropped a
piece on `(0, 0)`: the move wins via the column check, so the source skips
the diagonal update. -/
def stateC1 : GameState := (drop (initState 1) PLAYER_ONE 0 0).1

/-- Claim C1, counterexample: in the reachable 1×1 state after `PLAYER_ONE`
plays `(0, 0)`, every cell of the main diagonal (namely the single cell
`(0, 0)`) is occupied by `PLAYER_ONE`, yet the main-diagonal entry
`lineSums[2 * 1]` is `0`, not `N = 1` — the claimed "sum = N iff the line is
fully occupied by PlayerOne" fails in the "if" direction, because
`updateVictoryConditions` skips the diagonal update once the column check
has set the victory flag. -/
theorem C1_counterexample :
    Reachable 1 stateC1 ∧
    (∀ i, i < 1 → stateC1.board i i = PLAYER_ONE) ∧
    stateC1.lineSums.getD (1 * 2) 0 = 0 ∧
    stateC1.lineSums.getD (1 * 2) 0 ≠ (1 : Int) := by
  refine ⟨Reachable.move _ PLAYER_ONE 0 0 Reachable.init (Or.inl rfl)
    Nat.one_pos Nat.one_pos, ?_, by decide, by decide⟩
  intro i hi
  have h : i = 0 := by omega
  subst h
  decide

/-- Claim C1 (amended): for every reachable state, every line sum has
absolute value at most `N`; for each column and each row the sum equals `N`
(resp. `−N`) iff every cell of that line is occupied by `PLAYER_ONE` (resp.
`PLAYER_TWO`); for the two diagonals only the forward direction holds: a
diagonal sum of `N` (resp. `−N`) still forces the whole diagonal to be
occupied by that player, but a fully occupied diagonal need not be reflected
in its sum, because the diagonal updates are skipped on a move whose victory
flag was already set (see `C1_counterexample`). -/
theorem C1_line_sum_invariant {n : Nat} {s : GameState}
    (hn : 1 ≤ n) (hr : Reachable n s) :
    (∀ i, i < 2 * n + 2 → (s.lineSums.getD i 0).natAbs ≤ n) ∧
    (∀ x, x < n →
      ((s.lineSums.getD x 0 = (n : Int) ↔ ∀ y, y < n → s.board x y = PLAYER_ONE) ∧
       (s.lineSums.getD x 0 = -(n : Int) ↔ ∀ y, y < n → s.board x y = PLAYER_TWO))) ∧
    (∀ y, y < n →
      ((s.lineSums.getD (n + y) 0 = (n : Int) ↔ ∀ x, x < n → s.board x y = PLAYER_ONE) ∧
       (s.lineSums.getD (n + y) 0 = -(n : Int) ↔ ∀ x, x < n → s.board x y = PLAYER_TWO))) ∧
    ((s.lineSums.getD (n * 2) 0 = (n : Int) → ∀ i, i < n → s.board i i = PLAYER_ONE) ∧
     (s.lineSums.getD (n * 2) 0 = -(n : Int) → ∀ i, i < n → s.board i i = PLAYER_TWO)) ∧
    ((s.lineSums.getD (n * 2 + 1) 0 = (n : Int) →
        ∀ i, i < n → s.board i (n - 1 - i) = PLAYER_ONE) ∧
     (s.lineSums.getD (n * 2 + 1) 0 = -(n : Int) →
        ∀ i, i < n → s.board i (n - 1 - i) = PLAYER_TWO)) := by
  have hInv := reachable_inv hn hr
  exact ⟨Inv_lineSum_abs_le hInv, fun x hx => Inv_col_iff hInv x hx,
    fun y hy => Inv_row_iff hInv y hy, Inv_diag_imp hInv, Inv_anti_imp hInv⟩

/-- Witness for `C1_line_sum_invariant` at the concrete input `n = 1`,
`s = initState 1`. -/
theorem C1_line_sum_invariant_witness :
    (∀ i, i < 2 * 1 + 2 → ((initState 1).lineSums.getD i 0).natAbs ≤ 1) ∧
    (∀ x, x < 1 →
      (((initState 1).lineSums.getD x 0 = (1 : Int) ↔
          ∀ y, y < 1 → (initState 1).board x y = PLAYER_ONE) ∧
       ((initState 1).lineSums.getD x 0 = -(1 : Int) ↔
          ∀ y, y < 1 → (initState 1).board x y = PLAYER_TWO))) ∧
    (∀ y, y < 1 →
      (((initState 1).lineSums.getD (1 + y) 0 = (1 : Int) ↔
          ∀ x, x < 1 → (initState 1).board x y = PLAYER_ONE) ∧
       ((initState 1).lineSums.getD (1 + y) 0 = -(1 : Int) ↔
          ∀ x, x < 1 → (initState 1).board x y = PLAYER_TWO))) ∧
    (((initState 1).lineSums.getD (1 * 2) 0 = (1 : Int) →
        ∀ i, i < 1 → (initState 1).board i i = PLAYER_ONE) ∧
     ((initState 1).lineSums.getD (1 * 2) 0 = -(1 : Int) →
        ∀ i, i < 1 → (initState 1).board i i = PLAYER_TWO)) ∧
    (((initState 1).lineSums.getD (1 * 2 + 1) 0 = (1 : Int) →
        ∀ i, i < 1 → (initState 1).board i (1 - 1 - i) = PLAYER_ONE) ∧
     ((initState 1).lineSums.getD (1 * 2 + 1) 0 = -(1 : Int) →
        ∀ i, i < 1 → (initState 1).board i (1 - 1 - i) = PLAYER_TWO)) :=
  C1_line_sum_invariant (le_refl 1) Reachable.init

/-! ## Claim C2 -/

/-- Claim C2: for every reachable game state, `gameOver` holds iff some line
sum reached `±N` (victory) or the board is full (`turnCount = N²`) with no
line sum at `±N` (draw); and on the accepted move establishing this, the
outcome is `Win(player)` in the victory case and `Draw` in the full-board
case. -/
theorem C2_gameOver_iff {n : Nat} {s : GameState} (hn : 1 ≤ n) (hr : Reachable n s) :
    (s.gameOver = true ↔
      (∃ i, i < 2 * n + 2 ∧ (s.lineSums.getD i 0).natAbs = n) ∨
      (s.turnCount = n * n ∧
        ¬ ∃ i, i < 2 * n + 2 ∧ (s.lineSums.getD i 0).natAbs = n)) ∧
    (∀ p x y s' o, (p = PLAYER_ONE ∨ p = PLAYER_TWO) → x < n → y < n →
      drop s p x y = (s', MoveResult.accepted o) →
      ((∃ i, i < 2 * n + 2 ∧ (s'.lineSums.getD i 0).natAbs = n) →
        o = Outcome.win p) ∧
      (¬ (∃ i, i < 2 * n + 2 ∧ (s'.lineSums.getD i 0).natAbs = n) →
        s'.turnCount = n * n → o = Outcome.draw)) := by
  have hInv := reachable_inv hn hr
  constructor
  · rw [hInv.overIff]
    constructor
    · rintro (hE | ht)
      · exact Or.inl hE
      · by_cases hE : ∃ i, i < 2 * n + 2 ∧ (s.lineSums.getD i 0).natAbs = n
        · exact Or.inl hE
        · exact Or.inr ⟨ht, hE⟩
    · rintro (hE | ⟨ht, _⟩)
      · exact Or.inl hE
      · exact Or.inr ht
  · intro p x y s' o hp hx hy hdrop
    by_cases hgo : s.gameOver = false
    · by_cases hcur : p = s.currentPlayer
      · by_cases hocc : isOccupied s x y = false
        · rw [drop_accepted hgo hcur hocc] at hdrop
          injection hdrop with h1 h2
          injection h2 with h2
          subst h1
          subst h2
          have h0 : s.board x y = 0 := by simpa [isOccupied] using hocc
          obtain ⟨_, _, hwin, hdraw⟩ := Inv_accepted hn hInv hp hx hy hgo hcur h0
          exact ⟨hwin, hdraw⟩
        · have hocc' : isOccupied s x y = true := by
            cases hh : isOccupied s x y
            · exact absurd hh hocc
            · rfl
          rw [drop_occupied hgo hcur hocc'] at hdrop
          injection hdrop with _ h2
          exact absurd h2 (by simp)
      · rw [drop_wrong_player hgo hcur] at hdrop
        injection hdrop with _ h2
        exact absurd h2 (by simp)
    · have hgo' : s.gameOver = true := by
        cases hh : s.gameOver
        · exact absurd hh hgo
        · rfl
      rw [drop_over hgo'] at hdrop
      injection hdrop with _ h2
      exact absurd h2 (by simp)

/-- Witness for `C2_gameOver_iff` at the concrete input `n = 1`,
`s = initState 1`. -/
theorem C2_gameOver_iff_witness :
    ((initState 1).gameOver = true ↔
      (∃ i, i < 2 * 1 + 2 ∧ ((initState 1).lineSums.getD i 0).natAbs = 1) ∨
      ((initState 1).turnCount = 1 * 1 ∧
        ¬ ∃ i, i < 2 * 1 + 2 ∧ ((initState 1).lineSums.getD i 0).natAbs = 1)) ∧
    (∀ p x y s' o, (p = PLAYER_ONE ∨ p = PLAYER_TWO) → x < 1 → y < 1 →
      drop (initState 1) p x y = (s', MoveResult.accepted o) →
      ((∃ i, i < 2 * 1 + 2 ∧ (s'.lineSums.getD i 0).natAbs = 1) →
        o = Outcome.win p) ∧
      (¬ (∃ i, i < 2 * 1 + 2 ∧ (s'.lineSums.getD i 0).natAbs = 1) →
        s'.turnCount = 1 * 1 → o = Outcome.draw)) :=
  C2_gameOver_iff (le_refl 1) Reachable.init

/-! ## Claim C3 -/

/-- Claim C3: a rejected move (for any of the three gameplay reasons)
changes none of the board, the line sums, the current player, the turn
count, or the game-over flag. -/
theorem C3_rejected_no_state_change {s : GameState} {p : Int} {x y : Nat}
    {s' : GameState} {r : Reason}
    (h : drop s p x y = (s', MoveResult.rejected r)) :
    s'.board = s.board ∧ s'.lineSums = s.lineSums ∧
    s'.currentPlayer = s.currentPlayer ∧ s'.turnCount = s.turnCount ∧
    s'.gameOver = s.gameOver := by
  by_cases hgo : s.gameOver = false
  · by_cases hcur : p = s.currentPlayer
    · by_cases hocc : isOccupied s x y = false
      · rw [drop_accepted hgo hcur hocc] at h
        injection h with _ h2
        exact absurd h2 (by simp)
      · have hocc' : isOccupied s x y = true := by
          cases hh : isOccupied s x y
          · exact absurd hh hocc
          · rfl
        rw [drop_occupied hgo hcur hocc'] at h
        injection h with h1 _
        subst h1
        exact ⟨rfl, rfl, rfl, rfl, rfl⟩
    · rw [drop_wrong_player hgo hcur] at h
      injection h with h1 _
      subst h1
      exact ⟨rfl, rfl, rfl, rfl, rfl⟩
  · have hgo' : s.gameOver = true := by
      cases hh : s.gameOver
      · exact absurd hh hgo
      · rfl
    rw [drop_over hgo'] at h
    injection h with h1 _
    subst h1
    exact ⟨rfl, rfl, rfl, rfl, rfl⟩

/-- Witness for `C3_rejected_no_state_change`: the wrong-player rejection of
`PLAYER_TWO` trying to open the game leaves the engine state unchanged. -/
theorem C3_rejected_no_state_change_witness :
    (drop (initState 3) PLAYER_TWO 0 0).1.board = (initState 3).board ∧
    (drop (initState 3) PLAYER_TWO 0 0).1.lineSums = (initState 3).lineSums ∧
    (drop (initState 3) PLAYER_TWO 0 0).1.currentPlayer = (initState 3).currentPlayer ∧
    (drop (initState 3) PLAYER_TWO 0 0).1.turnCount = (initState 3).turnCount ∧
    (drop (initState 3) PLAYER_TWO 0 0).1.gameOver = (initState 3).gameOver :=
  C3_rejected_no_state_change
    (show drop (initState 3) PLAYER_TWO 0 0 =
        ((drop (initState 3) PLAYER_TWO 0 0).1,
          MoveResult.rejected (Reason.notYourTurn PLAYER_ONE)) by rfl)

/-! ## Claim C4 -/

/-- Claim C4: rejection reasons are decided in this fixed order: a finished
game yields `GameAlreadyOver` (for either player); otherwise a wrong player
yields `NotYourTurn` carrying the actual current player; otherwise an
occupied target cell yields `CellOccupied`; otherwise the move is
accepted. -/
theorem C4_rejection_precedence (s : GameState) (p : Int) (x y : Nat) :
    (s.gameOver = true →
      (drop s p x y).2 = MoveResult.rejected Reason.gameAlreadyOver) ∧
    (s.gameOver = false → p ≠ s.currentPlayer →
      (drop s p x y).2 = MoveResult.rejected (Reason.notYourTurn s.currentPlayer)) ∧
    (s.gameOver = false → p = s.currentPlayer → isOccupied s x y = true →
      (drop s p x y).2 = MoveResult.rejected Reason.cellOccupied) ∧
    (s.gameOver = false → p = s.currentPlayer → isOccupied s x y = false →
      ∃ o, (drop s p x y).2 = MoveResult.accepted o) := by
  refine ⟨?_, ?_, ?_, ?_⟩
  · intro h
    rw [drop_over h]
  · intro h1 h2
    rw [drop_wrong_player h1 h2]
  · intro h1 h2 h3
    rw [drop_occupied h1 h2 h3]
  · intro h1 h2 h3
    rw [drop_accepted h1 h2 h3]
    exact ⟨_, rfl⟩

/-- The state of a finished 1×1 game, used to exercise the
`GameAlreadyOver` branch. -/
def overState : GameState := (drop (initState 1) PLAYER_ONE 0 0).1

/-- The 3×3 state after `PLAYER_ONE` occupied `(0, 0)`, used to exercise
the `CellOccupied` branch. -/
def oneMoveState : GameState := (drop (initState 3) PLAYER_ONE 0 0).1

/-- Witness for `C4_rejection_precedence` at concrete inputs exercising all
four branches. -/
theorem C4_rejection_precedence_witness :
    (drop overState PLAYER_TWO 0 0).2 =
      MoveResult.rejected Reason.gameAlreadyOver ∧
    (drop (initState 3) PLAYER_TWO 0 0).2 =
      MoveResult.rejected (Reason.notYourTurn PLAYER_ONE) ∧
    (drop oneMoveState PLAYER_TWO 0 0).2 =
      MoveResult.rejected Reason.cellOccupied ∧
    ∃ o, (drop (initState 3) PLAYER_ONE 0 0).2 = MoveResult.accepted o := by
  refine ⟨(C4_rejection_precedence overState PLAYER_TWO 0 0).1 (by decide),
    ?_, ?_, ?_⟩
  · exact (C4_rejection_precedence (initState 3) PLAYER_TWO 0 0).2.1
      (by decide) (by decide)
  · exact (C4_rejection_precedence oneMoveState PLAYER_TWO 0 0).2.2.1
      (by decide) (by decide) (by decide)
  · exact (C4_rejection_precedence (initState 3) PLAYER_ONE 0 0).2.2.2
      (by decide) (by decide) (by decide)

/-! ## Claim C5 -/

/-- Claim C5: for every grid size `N ≥ 1`, a freshly initialized or reset
engine has `turnCount = 0`, `currentPlayer = PLAYER_ONE`,
`gameOver = false`, an all-empty board, a zero-filled line-sum table of
length `2N + 2`, and the initial status string `"Player 1 starts the game"`
(the status `"PlayerOne starts the game"` rendered with `PLAYER_ONE`'s
display name). -/
theorem C5_fresh_engine (n : Nat) (_hn : 1 ≤ n) :
    (∀ t, initTicTacToe n = some t →
      t.turnCount = 0 ∧ t.currentPlayer = PLAYER_ONE ∧ t.gameOver = false ∧
      (∀ x y, t.board x y = 0) ∧ t.lineSums = List.replicate (2 * n + 2) 0 ∧
      t.lineSums.length = 2 * n + 2 ∧
      t.message = "Player 1 starts the game") ∧
    (∀ s, s.GRID_SIZE = n →
      (resetGame s).turnCount = 0 ∧ (resetGame s).currentPlayer = PLAYER_ONE ∧
      (resetGame s).gameOver = false ∧ (∀ x y, (resetGame s).board x y = 0) ∧
      (resetGame s).lineSums = List.replicate (2 * n + 2) 0 ∧
      (resetGame s).lineSums.length = 2 * n + 2 ∧
      (resetGame s).message = "Player 1 starts the game") := by
  have hrep : ∀ s : GameState, s.GRID_SIZE = n →
      (resetGame s).lineSums = List.replicate (2 * n + 2) 0 := by
    intro s hs
    show List.replicate (s.GRID_SIZE * 2 + 2) (0 : Int) = List.replicate (2 * n + 2) 0
    rw [hs, Nat.mul_comm]
  have hmsg : ∀ s : GameState, (resetGame s).message = "Player 1 starts the game" := by
    intro s
    rfl
  constructor
  · intro t ht
    injection ht with ht
    subst ht
    exact ⟨rfl, rfl, rfl, fun _ _ => rfl, hrep (blankState n) rfl,
      by rw [hrep (blankState n) rfl, List.length_replicate], hmsg _⟩
  · intro s hs
    exact ⟨rfl, rfl, rfl, fun _ _ => rfl, hrep s hs,
      by rw [hrep s hs, List.length_replicate], hmsg _⟩

/-- Witness for `C5_fresh_engine` at the concrete input `n = 3`. -/
theorem C5_fresh_engine_witness :
    (∀ t, initTicTacToe 3 = some t →
      t.turnCount = 0 ∧ t.currentPlayer = PLAYER_ONE ∧ t.gameOver = false ∧
      (∀ x y, t.board x y = 0) ∧ t.lineSums = List.replicate (2 * 3 + 2) 0 ∧
      t.lineSums.length = 2 * 3 + 2 ∧
      t.message = "Player 1 starts the game") ∧
    (∀ s, s.GRID_SIZE = 3 →
      (resetGame s).turnCount = 0 ∧ (resetGame s).currentPlayer = PLAYER_ONE ∧
      (resetGame s).gameOver = false ∧ (∀ x y, (resetGame s).board x y = 0) ∧
      (resetGame s).lineSums = List.replicate (2 * 3 + 2) 0 ∧
      (resetGame s).lineSums.length = 2 * 3 + 2 ∧
      (resetGame s).message = "Player 1 starts the game") :=
  C5_fresh_engine 3 (by decide)

/-! ## Claim C6 -/

/-- Claim C6: `resetGame` is idempotent — from any state (in particular any
reachable one, at any time, including mid-game), resetting twice equals
resetting once — and it preserves the configured grid size. -/
theorem C6_reset_idempotent (s : GameState) :
    resetGame (resetGame s) = resetGame s ∧
    (resetGame s).GRID_SIZE = s.GRID_SIZE :=
  ⟨rfl, rfl⟩

/-! ## Claim C7 -/

/-- Claim C7: in every reachable state (i.e. after every sequence of
accepted moves), `turnCount` equals the number of occupied board cells, and
hence stays between `0` and `N²`. -/
theorem C7_turnCount_eq_occupied {n : Nat} {s : GameState}
    (hn : 1 ≤ n) (hr : Reachable n s) :
    s.turnCount = occupiedCount s ∧ s.turnCount ≤ n * n := by
  have hInv := reachable_inv hn hr
  refine ⟨hInv.turnOk, ?_⟩
  have h := occupiedCount_le s
  rw [hInv.size] at h
  have h1 := hInv.turnOk
  omega

/-- Witness for `C7_turnCount_eq_occupied` at the concrete input `n = 1`,
`s = initState 1`. -/
theorem C7_turnCount_eq_occupied_witness :
    (initState 1).turnCount = occupiedCount (initState 1) ∧
    (initState 1).turnCount ≤ 1 * 1 :=
  C7_turnCount_eq_occupied (le_refl 1) Reachable.init

/-! ## Claim C8 -/

/-- Claim C8, counterexample: `initTicTacToe` with `gridSize = 0 < 1` does
not reject the configuration — it succeeds (`isSome`), contradicting the
claim that construction with `gridSize < 1` fails. -/
theorem C8_counterexample :
    (initTicTacToe 0).isSome = true ∧ initTicTacToe 0 ≠ none :=
  ⟨rfl, fun h => Option.noConfusion h⟩

/-- Claim C8 (amended): the source constructor performs no validation of
`gridSize` at all: for every `gridSize` (including values `< 1`) it
produces an engine with that grid size, `turnCount = 0`,
`gameOver = false` and `currentPlayer = PLAYER_ONE`, rather than
rejecting. -/
theorem C8_no_validation (g : Nat) :
    ∃ t, initTicTacToe g = some t ∧ t.GRID_SIZE = g ∧ t.turnCount = 0 ∧
      t.gameOver = false ∧ t.currentPlayer = PLAYER_ONE :=
  ⟨initState g, rfl, rfl, rfl, rfl, rfl⟩

/-! ## Claim C9 -/

/-- Claim C9 (spec-modelled): a move attempt whose coordinates lie outside
`[0, N)` fails loudly with the explicit `InvalidCoordinate` error result
and leaves the engine state completely unchanged (the returned state is the
input state itself). -/
theorem C9_invalid_coordinate (s : GameState) (p : Int) (x y : Int)
    (h : ¬ (0 ≤ x ∧ x < (s.GRID_SIZE : Int) ∧ 0 ≤ y ∧ y < (s.GRID_SIZE : Int))) :
    attemptMove s p x y = (s, MoveResult.rejected Reason.invalidCoordinate) := by
  unfold attemptMove
  rw [if_neg h]

/-- Witness for `C9_invalid_coordinate` at the concrete out-of-range input
`x = 5` on a 3×3 board. -/
theorem C9_invalid_coordinate_witness :
    attemptMove (initState 3) PLAYER_ONE 5 0 =
      (initState 3, MoveResult.rejected Reason.invalidCoordinate) :=
  C9_invalid_coordinate (initState 3) PLAYER_ONE 5 0 (by decide)

/-! ## Claim C10 -/

/-- Claim C10: frame effects of one `updateVictoryConditions` call on an
in-range move over a well-formed table, for a piece value `±1`:
(A) when the updated column or row sum reaches absolute value `GRID_SIZE`,
neither diagonal entry is updated (even if the cell lies on one or both
diagonals); (B) when the column and row checks miss but the main-diagonal
update reaches `±GRID_SIZE`, the anti-diagonal entry is left unchanged;
(C) a cell off the main diagonal never changes the main-diagonal entry;
(D) a cell off the anti-diagonal never changes the anti-diagonal entry;
(E) every table entry other than column `x`, row `y` and the two diagonal
slots is unchanged. -/
theorem C10_frame_effects (s : GameState) (x y : Nat) (p : Int)
    (hx : x < s.GRID_SIZE) (hy : y < s.GRID_SIZE)
    (hlen : s.lineSums.length = 2 * s.GRID_SIZE + 2)
    (hp : p = 1 ∨ p = -1) :
    ((((bumpLine (bumpLine s.lineSums x p) (s.GRID_SIZE + y) p).getD x 0).natAbs
          = s.GRID_SIZE ∨
      ((bumpLine (bumpLine s.lineSums x p) (s.GRID_SIZE + y) p).getD
          (s.GRID_SIZE + y) 0).natAbs = s.GRID_SIZE) →
      (updateVictoryConditions s x y p).lineSums.getD (s.GRID_SIZE * 2) 0 =
        s.lineSums.getD (s.GRID_SIZE * 2) 0 ∧
      (updateVictoryConditions s x y p).lineSums.getD (s.GRID_SIZE * 2 + 1) 0 =
        s.lineSums.getD (s.GRID_SIZE * 2 + 1) 0) ∧
    ((((bumpLine (bumpLine s.lineSums x p) (s.GRID_SIZE + y) p).getD x 0).natAbs
          ≠ s.GRID_SIZE →
      ((bumpLine (bumpLine s.lineSums x p) (s.GRID_SIZE + y) p).getD
          (s.GRID_SIZE + y) 0).natAbs ≠ s.GRID_SIZE →
      x = y →
      ((bumpLine (bumpLine (bumpLine s.lineSums x p) (s.GRID_SIZE + y) p)
          (s.GRID_SIZE * 2) p).getD (s.GRID_SIZE * 2) 0).natAbs = s.GRID_SIZE →
      (updateVictoryConditions s x y p).lineSums.getD (s.GRID_SIZE * 2 + 1) 0 =
        s.lineSums.getD (s.GRID_SIZE * 2 + 1) 0)) ∧
    (x ≠ y →
      (updateVictoryConditions s x y p).lineSums.getD (s.GRID_SIZE * 2) 0 =
        s.lineSums.getD (s.GRID_SIZE * 2) 0) ∧
    (y ≠ s.GRID_SIZE - 1 - x →
      (updateVictoryConditions s x y p).lineSums.getD (s.GRID_SIZE * 2 + 1) 0 =
        s.lineSums.getD (s.GRID_SIZE * 2 + 1) 0) ∧
    (∀ i, i ≠ x → i ≠ s.GRID_SIZE + y → i ≠ s.GRID_SIZE * 2 →
      i ≠ s.GRID_SIZE * 2 + 1 →
      (updateVictoryConditions s x y p).lineSums.getD i 0 =
        s.lineSums.getD i 0) := by
  obtain ⟨_, _, _, _, _, gdiag_ne, ganti_ne, gother, _⟩ :=
    uVC_spec (rfl : updateVictoryConditions s x y p = updateVictoryConditions s x y p)
      hx hy hlen hp
  refine ⟨?_, ?_, gdiag_ne, ganti_ne, gother⟩
  · -- (A) a column or row hit suppresses both diagonal updates
    intro hvf
    unfold updateVictoryConditions
    dsimp only
    set n := s.GRID_SIZE with hn
    set L := s.lineSums with hL
    set L2 := bumpLine (bumpLine L x p) (n + y) p with hL2
    have hv2 : (((L2.getD x 0).natAbs == n) || ((L2.getD (n + y) 0).natAbs == n))
        = true := by
      rw [Bool.or_eq_true]
      rcases hvf with h | h
      · exact Or.inl (by rwa [beq_iff_eq])
      · exact Or.inr (by rwa [beq_iff_eq])
    have hnc : ¬ ((((L2.getD x 0).natAbs == n) || ((L2.getD (n + y) 0).natAbs == n))
        = false ∧ x = y) := by
      rw [hv2]
      simp
    have hnc2 : ¬ ((((L2.getD x 0).natAbs == n) || ((L2.getD (n + y) 0).natAbs == n))
        = false ∧ (((x : Int) - ((n : Int) - 1)).natAbs == y) = true) := by
      rw [hv2]
      simp
    simp only [if_neg hnc, if_neg hnc2]
    constructor
    · rw [hL2, getD_bumpLine_ne p (by omega), getD_bumpLine_ne p (by omega)]
    · rw [hL2, getD_bumpLine_ne p (by omega), getD_bumpLine_ne p (by omega)]
  · -- (B) a main-diagonal hit suppresses the anti-diagonal update
    intro hcx hcy hxy hdiag
    unfold updateVictoryConditions
    dsimp only
    set n := s.GRID_SIZE with hn
    set L := s.lineSums with hL
    set L2 := bumpLine (bumpLine L x p) (n + y) p with hL2
    have hv2f : (((L2.getD x 0).natAbs == n) || ((L2.getD (n + y) 0).natAbs == n))
        = false := by
      rw [Bool.or_eq_false_iff]
      exact ⟨by rwa [beq_eq_false_iff_ne], by rwa [beq_eq_false_iff_ne]⟩
    have hc1 : ((((L2.getD x 0).natAbs == n) || ((L2.getD (n + y) 0).natAbs == n))
        = false ∧ x = y) := ⟨hv2f, hxy⟩
    simp only [if_pos hc1]
    set L3 := bumpLine L2 (n * 2) p with hL3
    have hv3 : ((L3.getD (n * 2) 0).natAbs == n) = true := by
      rw [beq_iff_eq]
      exact hdiag
    have hnc2 : ¬ (((L3.getD (n * 2) 0).natAbs == n) = false
        ∧ (((x : Int) - ((n : Int) - 1)).natAbs == y) = true) := by
      rw [hv3]
      simp
    simp only [if_neg hnc2]
    rw [hL3, getD_bumpLine_ne p (by omega), hL2,
      getD_bumpLine_ne p (by omega), getD_bumpLine_ne p (by omega)]

/-- Witness for `C10_frame_effects`: on the 1×1 board, `PLAYER_ONE`'s move
at `(0, 0)` wins via the column check, and both diagonal entries of the
line-sum table are left unchanged. -/
theorem C10_frame_effects_witness :
    (updateVictoryConditions (initState 1) 0 0 PLAYER_ONE).lineSums.getD
        ((initState 1).GRID_SIZE * 2) 0 =
      (initState 1).lineSums.getD ((initState 1).GRID_SIZE * 2) 0 ∧
    (updateVictoryConditions (initState 1) 0 0 PLAYER_ONE).lineSums.getD
        ((initState 1).GRID_SIZE * 2 + 1) 0 =
      (initState 1).lineSums.getD ((initState 1).GRID_SIZE * 2 + 1) 0 :=
  (C10_frame_effects (initState 1) 0 0 PLAYER_ONE (by decide) (by decide)
    (by decide) (Or.inl rfl)).1 (by decide)

end TicTacToe
